import Mathlib

/-!
# go-mysqldump: the row encoder and the batch streamer

A shallow embedding of `src/mysqldump.go` (`table.Init`, `table.Next`,
`table.RowBuffer`, `table.Stream`, `table.CreateSQL`, `Data.getTables`,
`Data.isIgnoredTable`, `Data.writeTable`, `Data.dumpTable`, the loop of
`Data.dump` over the tables) and of the template `tableTmpl` of
`src/templates.go`, and theorems about it.

Modelling conventions.

* A Go string or byte buffer is the list of its bytes, one `Char` per byte
  (every literal of the source is ASCII); `len` is `List.length`.
* A Go `int` is a 64-bit signed integer: a mathematical `Int` with the
  subtraction of `Stream` wrapped by `wrapInt`. Buffer lengths are far below
  `2^63`, so sums of lengths are not wrapped.
* `sanitize` is called by `RowBuffer` and declared elsewhere in the package; it
  is a parameter of every definition that reaches it.
* The database is a deterministic environment: `DB.respond` gives the answer to
  a query from the queries issued so far; the connection records the queries it
  was sent and counts the calls of `rows.Close()` made by the package (the cursor
  of `QueryRow` is closed inside `database/sql` and is not counted).
* `text/template` runs the actions of a template in order and stops at the first
  method call that returns an error; the error it returns for it is `wrap err`,
  `wrap` being a parameter.
* The channel returned by `Stream` is the list of the values sent on it, in
  order.
-/

namespace MySQLDump

/-- A Go string or `bytes.Buffer` content. -/
abbrev Bytes := List Char

/-- A Go `error`, by its message. -/
abbrev Error := Bytes

/-- The kinds of `reflect.Kind`. -/
inductive Kind where
  | Invalid | Bool | Int | Int8 | Int16 | Int32 | Int64
  | Uint | Uint8 | Uint16 | Uint32 | Uint64 | Uintptr
  | Float32 | Float64 | Complex64 | Complex128
  | Array | Chan | Func | Interface | Map | Pointer | Slice | String | Struct
  | UnsafePointer
  deriving DecidableEq, Repr

/-- What the code reads of a `*sql.ColumnType`: `DatabaseTypeName()` and the kind
of `ScanType()` (`none` when `ScanType()` is nil). -/
structure ColumnType where
  DatabaseTypeName : Bytes
  ScanType : Option Kind
  deriving DecidableEq, Repr

/-- The three `reflect.Type`s that `Init` stores in `table.types`. -/
inductive GoType where
  | RawBytes | NullInt64 | NullString
  deriving DecidableEq, Repr

/-- The dynamic value behind one element of `table.values`, as the type switch of
`RowBuffer` sees it. `other s` is a value of any other dynamic type, `s` being
what the verb `%s` prints for it. A nil `sql.RawBytes` is `RawBytes []`. -/
inductive Value where
  | nil
  | NullString (String : Bytes) (Valid : Bool)
  | NullInt64 (Int64 : Int) (Valid : Bool)
  | RawBytes (b : Bytes)
  | other (s : Bytes)
  deriving DecidableEq, Repr

/-- One successful `rows.Next()` of the driver and what follows it:
`ok vals`: `Scan` fills the destinations with `vals` and `rows.Err()` is nil;
`scanErr e`: `Scan` returns `e`;
`rowsErr vals e`: `Scan` succeeds and `rows.Err()` returns `e`. -/
inductive Fetch where
  | ok (vals : List Value)
  | scanErr (e : Error)
  | rowsErr (vals : List Value) (e : Error)
  deriving DecidableEq, Repr

/-- An open `*sql.Rows`: the answers of `Columns()` and `ColumnTypes()` and the
fetches still to come; `rows.Next()` is false once `fetches` is empty, and `Err`
is what `rows.Err()` returns from then on. -/
structure Rows where
  Columns : Except Error (List Bytes)
  ColumnTypes : Except Error (List ColumnType)
  fetches : List Fetch
  Err : Option Error := none

/-- The `*sql.DB` behind `Data.Connection`. -/
structure DB where
  respond : List Bytes → Bytes → Except Error Rows
  queries : List Bytes
  closed : Nat

/-- The configuration fields of `Data` that the table code reads, and the field
`err`. -/
structure Data where
  Connection : DB
  IgnoreTables : List Bytes
  MaxAllowedPacket : Int
  CharsetName : Bytes
  err : Option Error := none

/-- The struct `table`. -/
structure table where
  Name : Bytes
  Err : Option Error
  CharsetName : Bytes
  data : Data
  rows : Option Rows
  types : List GoType
  values : List Value

/-- The constant `nullType`. -/
def nullType : Bytes := "NULL".toList

/-- The constant `defaultMaxAllowedPacket`. -/
def defaultMaxAllowedPacket : Int := 4194304

/-- Two's complement wrap of an integer to 64 bits. -/
def wrapInt (x : Int) : Int :=
  (x + 9223372036854775808) % 18446744073709551616 - 9223372036854775808

/-- The method `db.Query(q)`: the answer, and the connection with the query
recorded. -/
def DB.Query (db : DB) (q : Bytes) : Except Error Rows × DB :=
  (db.respond db.queries q, { db with queries := db.queries ++ [q] })

/-- The method `rows.Close()`, seen from the connection. -/
def DB.closeRows (db : DB) : DB :=
  { db with closed := db.closed + 1 }

/-- The function `Data.createTable`. -/
def createTable (data : Data) (name : Bytes) : table :=
  { Name := name, Err := none, CharsetName := [], data := data, rows := none,
    types := [], values := [] }

/-- The method `table.NameEsc`. -/
def NameEsc (t : table) : Bytes :=
  "`".toList ++ t.Name ++ "`".toList

/-- The branch of `Init` that chooses the type of one column. -/
def columnType (tp : ColumnType) : GoType :=
  if tp.DatabaseTypeName = "BLOB".toList then GoType.RawBytes
  else if tp.ScanType = some Kind.Int ∨ tp.ScanType = some Kind.Int8 ∨
      tp.ScanType = some Kind.Int16 ∨ tp.ScanType = some Kind.Int32 ∨
      tp.ScanType = some Kind.Int64 then GoType.NullInt64
  else GoType.NullString

/-- The value `reflect.New(tp).Interface()` points to: the zero value of the
type. -/
def zeroValue : GoType → Value
  | GoType.RawBytes => Value.RawBytes []
  | GoType.NullInt64 => Value.NullInt64 0 false
  | GoType.NullString => Value.NullString [] false

/-- The method `table.Init`: the returned error (`none` for nil) and the table
afterwards. -/
def Init (t : table) : Option Error × table :=
  if t.types.length ≠ 0 then (some "can't init twice".toList, t)
  else
    match t.data.Connection.Query ("SELECT * FROM ".toList ++ NameEsc t) with
    | (Except.error e, db) =>
      (some e, { t with rows := none, data := { t.data with Connection := db } })
    | (Except.ok rows, db) =>
      let t1 := { t with rows := some rows, data := { t.data with Connection := db } }
      match rows.Columns with
      | Except.error e => (some e, t1)
      | Except.ok columns =>
        if columns.length = 0 then
          (some ("No columns in table ".toList ++ t.Name ++ ".".toList), t1)
        else
          match rows.ColumnTypes with
          | Except.error e => (some e, t1)
          | Except.ok tt =>
            let types := tt.map columnType
            (none, { t1 with types := types, values := types.map zeroValue })

/-- The part of `Next` after the comment `Fallthrough`. With `table.rows` nil the
Go code would dereference nil; `Init` returns nil only after setting it. -/
def nextRow (t : table) : Bool × table :=
  match t.rows with
  | none => (false, t)
  | some rows =>
    match rows.fetches with
    | f :: rest =>
      let t1 := { t with rows := some { rows with fetches := rest } }
      match f with
      | Fetch.ok vals => (true, { t1 with values := vals })
      | Fetch.scanErr e => (false, { t1 with Err := some e })
      | Fetch.rowsErr vals e => (false, { t1 with values := vals, Err := some e })
    | [] =>
      (false, { t with rows := none,
                       data := { t.data with Connection := t.data.Connection.closeRows } })

/-- The method `table.Next`. -/
def Next (t : table) : Bool × table :=
  match t.rows with
  | none =>
    match Init t with
    | (some err, t1) => (false, { t1 with Err := some err })
    | (none, t1) => nextRow t1
  | some _ => nextRow t

/-- The verb `%d` of `fmt` on an `int64`. -/
def fmtD (v : Int) : Bytes :=
  match v with
  | Int.ofNat m => Nat.toDigits 10 m
  | Int.negSucc m => '-' :: Nat.toDigits 10 (m + 1)

/-- The type switch in the loop of `RowBuffer`: what is written for one value. -/
def writeValue (sanitize : Bytes → Bytes) : Value → Bytes
  | Value.nil => nullType
  | Value.NullString s valid =>
    if valid then "'".toList ++ sanitize s ++ "'".toList else nullType
  | Value.NullInt64 i valid =>
    if valid then fmtD i else nullType
  | Value.RawBytes s =>
    if s.length = 0 then nullType
    else "_binary '".toList ++ sanitize s ++ "'".toList
  | Value.other s => "'".toList ++ s ++ "'".toList

/-- The loop of `RowBuffer` from index `key` on, `b` being the buffer so far. -/
def rowLoop (sanitize : Bytes → Bytes) : Nat → List Value → Bytes → Bytes
  | _, [], b => b
  | key, value :: rest, b =>
    let b1 := if key ≠ 0 then b ++ ",".toList else b
    rowLoop sanitize (key + 1) rest (b1 ++ writeValue sanitize value)

/-- The method `table.RowBuffer`. -/
def RowBuffer (sanitize : Bytes → Bytes) (t : table) : Bytes :=
  rowLoop sanitize 0 t.values "(".toList ++ ")".toList

/-- The method `table.RowValues`. -/
def RowValues (sanitize : Bytes → Bytes) (t : table) : Bytes :=
  RowBuffer sanitize t

/-- The value of the Go expression `table.data.MaxAllowedPacket-1`. -/
def budget (maxAllowedPacket : Int) : Int :=
  wrapInt (maxAllowedPacket - 1)

/-- The body of the loop of `Stream` for the encoded row `b`: the buffer `insert`
and the statements sent so far, before and after. -/
def streamStep (maxAllowedPacket : Int) (nameEsc : Bytes) (st : Bytes × List Bytes)
    (b : Bytes) : Bytes × List Bytes :=
  let st1 : Bytes × List Bytes :=
    if st.1.length ≠ 0 ∧ ((st.1.length + b.length : Nat) : Int) > budget maxAllowedPacket then
      ([], st.2 ++ [st.1 ++ ";".toList])
    else st
  let insert :=
    if st1.1.length = 0 then "INSERT INTO ".toList ++ nameEsc ++ " VALUES ".toList
    else st1.1 ++ ",".toList
  (insert ++ b, st1.2)

/-- The loop `for table.Next()` of `Stream`, run for at most `fuel` calls of
`Next`: the buffer, the statements sent and the table when `Next` returns false. -/
def streamLoop (sanitize : Bytes → Bytes) :
    Nat → table → Bytes × List Bytes → Option ((Bytes × List Bytes) × table)
  | 0, _, _ => none
  | fuel + 1, t, st =>
    match Next t with
    | (true, t1) =>
      streamLoop sanitize fuel t1
        (streamStep t1.data.MaxAllowedPacket (NameEsc t1) st (RowBuffer sanitize t1))
    | (false, t1) => some (st, t1)

/-- The statements after the loop of `Stream`: the buffer is sent when it is not
empty. -/
def streamFlush (st : Bytes × List Bytes) : List Bytes :=
  if st.1.length ≠ 0 then st.2 ++ [st.1 ++ ";".toList] else st.2

/-- The number of fetches the cursor of the table still holds (the cursor `Init`
would open when none is open). -/
def pending (t : table) : Nat :=
  match t.rows with
  | some rows => rows.fetches.length
  | none =>
    match (Init t).2.rows with
    | some rows => rows.fetches.length
    | none => 0

/-- The method `table.Stream`: the statements sent on the channel, in order, and
the table when the goroutine ends. -/
def Stream (sanitize : Bytes → Bytes) (t : table) : Option (List Bytes × table) :=
  match streamLoop sanitize (pending t + 1) t ([], []) with
  | none => none
  | some (st, t1) => some (streamFlush st, t1)

/-- The statements sent by `Stream`. -/
def emitted (sanitize : Bytes → Bytes) (t : table) : Option (List Bytes) :=
  (Stream sanitize t).map Prod.fst

/-! ## The creation statement, the table section and the list of tables -/

/-- What `rows.Scan` leaves in a destination of type `sql.NullString`: the field
`String` and the field `Valid`. A value of another type cannot be what the
destination holds: `none`. -/
def asNullString : Value → Option (Bytes × Bool)
  | Value.NullString s valid => some (s, valid)
  | _ => none

/-- The call `db.QueryRow(q).Scan(&a, &b)` of `database/sql` with two
destinations of type `sql.NullString`: the error of the query, the error of
`rows.Err()` or `sql.ErrNoRows` when there is no row, the error of `Scan`,
or the two values. The cursor is closed by the library. -/
def DB.queryRowScan2 (db : DB) (q : Bytes) :
    Except Error ((Bytes × Bool) × (Bytes × Bool)) × DB :=
  match db.Query q with
  | (Except.error e, db1) => (Except.error e, db1)
  | (Except.ok rows, db1) =>
    match rows.fetches with
    | [] =>
      match rows.Err with
      | some e => (Except.error e, db1)
      | none => (Except.error "sql: no rows in result set".toList, db1)
    | Fetch.scanErr e :: _ => (Except.error e, db1)
    | Fetch.ok vals :: _ | Fetch.rowsErr vals _ :: _ =>
      match vals with
      | [a, b] =>
        match asNullString a, asNullString b with
        | some x, some y => (Except.ok (x, y), db1)
        | _, _ => (Except.error "sql: Scan error".toList, db1)
      | _ => (Except.error "sql: wrong number of destination arguments in Scan".toList, db1)

/-- The method `table.CreateSQL`: the statement or the error, and the table
afterwards. -/
def CreateSQL (t : table) : Except Error Bytes × table :=
  match t.data.Connection.queryRowScan2 ("SHOW CREATE TABLE ".toList ++ NameEsc t) with
  | (Except.error err, db) =>
    (Except.error err, { t with data := { t.data with Connection := db } })
  | (Except.ok (tableReturn, tableSQL), db) =>
    let t1 := { t with data := { t.data with Connection := db } }
    if tableReturn.1 ≠ t.Name then
      (Except.error "Returned table is not the same as requested table".toList, t1)
    else (Except.ok tableSQL.1, t1)

/-- The text the template `tableTmpl` writes before the action `.CreateSQL`. -/
def tableTmplHead (t : table) : Bytes :=
  "\n--\n-- Table structure for table ".toList ++ NameEsc t
    ++ "\n--\n\nDROP TABLE IF EXISTS ".toList ++ NameEsc t
    ++ ";\n/*!40101 SET @saved_cs_client     = @@character_set_client */;\n".toList
    ++ "SET character_set_client = ".toList ++ t.CharsetName ++ ";\n".toList

/-- The execution of the template `tableTmpl` on the table, by `text/template`:
the text written, the error returned and the table afterwards. The actions are
run in order; when `CreateSQL` returns an error the execution stops there, with
the error `wrap err` (the error of `text/template` for a failed call), and
`Stream` is not called. The loop `range` writes every value received from
`Stream` followed by a newline. -/
def executeTableTmpl (sanitize : Bytes → Bytes) (wrap : Error → Error) (t : table) :
    Option (Bytes × Option Error × table) :=
  let head := tableTmplHead t
  match CreateSQL t with
  | (Except.error err, t1) => some (head, some (wrap err), t1)
  | (Except.ok sql, t1) =>
    let middle :=
      sql ++ ";\n/*!40101 SET character_set_client = @saved_cs_client */;\n\n".toList
        ++ "--\n-- Dumping data for table ".toList ++ NameEsc t1
        ++ "\n--\n\nLOCK TABLES ".toList ++ NameEsc t1
        ++ " WRITE;\n/*!40000 ALTER TABLE ".toList ++ NameEsc t1
        ++ " DISABLE KEYS */;\n".toList
    match Stream sanitize t1 with
    | none => none
    | some (values, t2) =>
      some (head ++ middle ++ (values.map (fun value => value ++ "\n".toList)).flatten
          ++ "/*!40000 ALTER TABLE ".toList ++ NameEsc t2
          ++ " ENABLE KEYS */;\nUNLOCK TABLES;\n".toList,
        none, t2)

/-- The method `Data.writeTable`: the text appended to `data.out`, the error
returned and the table afterwards. -/
def writeTable (sanitize : Bytes → Bytes) (wrap : Error → Error) (t : table) :
    Option (Bytes × Option Error × table) :=
  match executeTableTmpl sanitize wrap { t with CharsetName := t.data.CharsetName } with
  | none => none
  | some (out, some err, t1) => some (out, some err, t1)
  | some (out, none, t1) => some (out, t1.Err, t1)

/-- The method `Data.dumpTable`. -/
def dumpTable (sanitize : Bytes → Bytes) (wrap : Error → Error) (data : Data) (name : Bytes) :
    Option (Bytes × Option Error × Data) :=
  match data.err with
  | some err => some ([], some err, data)
  | none =>
    match writeTable sanitize wrap (createTable data name) with
    | none => none
    | some (out, err, t1) => some (out, err, t1.data)

/-- The loop of `dump` over the tables: the text written, the error that stops
the loop and the data afterwards. -/
def dumpTables (sanitize : Bytes → Bytes) (wrap : Error → Error) :
    Data → List Bytes → Option (Bytes × Option Error × Data)
  | data, [] => some ([], none, data)
  | data, name :: rest =>
    match dumpTable sanitize wrap data name with
    | none => none
    | some (out, some err, data1) => some (out, some err, data1)
    | some (out, none, data1) =>
      match dumpTables sanitize wrap data1 rest with
      | none => none
      | some (out2, err, data2) => some (out ++ out2, err, data2)

/-- The loop of `isIgnoredTable` over the items. -/
def isIgnoredLoop (name : Bytes) : List Bytes → Bool
  | [] => false
  | item :: rest => if item = name then true else isIgnoredLoop name rest

/-- The method `Data.isIgnoredTable`. -/
def isIgnoredTable (data : Data) (name : Bytes) : Bool :=
  isIgnoredLoop name data.IgnoreTables

/-- The call `rows.Scan(&table)` of `getTables`, the destination being a
`sql.NullString`: the error of `Scan`, or the value read. -/
def scanTableName : Fetch → Except Error (Bytes × Bool)
  | Fetch.scanErr e => Except.error e
  | Fetch.ok vals | Fetch.rowsErr vals _ =>
    match vals with
    | [a] =>
      match asNullString a with
      | some x => Except.ok x
      | none => Except.error "sql: Scan error".toList
    | _ => Except.error "sql: wrong number of destination arguments in Scan".toList

/-- The loop `for rows.Next()` of `getTables` and its `return`: the tables and
the error. -/
def getTablesLoop (data : Data) (lastErr : Option Error) :
    List Fetch → List Bytes → List Bytes × Option Error
  | [], tables => (tables, lastErr)
  | f :: rest, tables =>
    match scanTableName f with
    | Except.error err => (tables, some err)
    | Except.ok tbl =>
      if tbl.2 = true ∧ isIgnoredTable data tbl.1 = false then
        getTablesLoop data lastErr rest (tables ++ [tbl.1])
      else getTablesLoop data lastErr rest tables

/-- The method `Data.getTables`: the tables, the error, and the data afterwards
(the deferred `rows.Close()` has run when the query succeeded). -/
def getTables (data : Data) : List Bytes × Option Error × Data :=
  match data.Connection.Query "SHOW TABLES".toList with
  | (Except.error err, db) => ([], some err, { data with Connection := db })
  | (Except.ok rows, db) =>
    let r := getTablesLoop data rows.Err rows.fetches []
    (r.1, r.2, { data with Connection := db.closeRows })

/-! ## Vocabulary of the statements -/

/-- The text `INSERT INTO <name> VALUES ` that opens a statement. -/
def preamble (nameEsc : Bytes) : Bytes :=
  "INSERT INTO ".toList ++ nameEsc ++ " VALUES ".toList

/-- The buffer that holds the tuples `g`: the preamble and the tuples joined by
commas, not yet terminated. -/
def openStatement (nameEsc : Bytes) (g : List Bytes) : Bytes :=
  preamble nameEsc ++ List.intercalate ",".toList g

/-- The complete statement for the tuples `g`. -/
def statementOf (nameEsc : Bytes) (g : List Bytes) : Bytes :=
  openStatement nameEsc g ++ ";".toList

/-- The tuple `(v0,v1,...)` of the renderings of a row. -/
def tupleOf (sanitize : Bytes → Bytes) (vals : List Value) : Bytes :=
  "(".toList ++ List.intercalate ",".toList (vals.map (writeValue sanitize)) ++ ")".toList

/-- The loop of `Stream` on the encoded rows `bs`, without the cursor. -/
def feed (maxAllowedPacket : Int) (nameEsc : Bytes) (st : Bytes × List Bytes)
    (bs : List Bytes) : Bytes × List Bytes :=
  bs.foldl (streamStep maxAllowedPacket nameEsc) st

/-- An absent (NULL) value of one of the three column types: an invalid
`NullString`, an invalid `NullInt64`, a nil `RawBytes`. -/
def Value.isAbsent : Value → Bool
  | Value.NullString _ false => true
  | Value.NullInt64 _ false => true
  | Value.RawBytes [] => true
  | _ => false

/-- The buffer `openStatement g` was sealed before the head of `g2` for being over
the budget `B` with it. -/
def SealedBefore (B : Int) (nameEsc : Bytes) (g g2 : List Bytes) : Prop :=
  ∃ t r, g2 = t :: r ∧ B < ((openStatement nameEsc g).length + t.length : Nat)

/-- Every tuple of `g` after the first was within the budget `B` together with the
buffer before it. -/
def Within (B : Int) (nameEsc : Bytes) (g : List Bytes) : Prop :=
  ∀ a t b, g = a ++ t :: b → a ≠ [] →
    (((openStatement nameEsc a).length + t.length : Nat) : Int) ≤ B

/-- The groups `G` of tuples are those of greedy batching with the threshold `B`:
no group is empty, a tuple joins a non-empty buffer only within the budget, and
a buffer is sealed only when the next tuple is over the budget with it. -/
def Greedy (B : Int) (nameEsc : Bytes) (G : List (List Bytes)) : Prop :=
  (∀ g ∈ G, g ≠ []) ∧ (∀ g ∈ G, Within B nameEsc g) ∧
    List.Chain' (SealedBefore B nameEsc) G

/-- The state of the loop of `Stream` after the tuples `ts`, from the empty
buffer: nothing read yet, or sealed groups `gs` and an open group `cur`. -/
def LoopInv (B : Int) (nameEsc : Bytes) (ts : List Bytes) (st : Bytes × List Bytes) : Prop :=
  (ts = [] ∧ st = ([], [])) ∨
    ∃ gs cur, cur ≠ [] ∧ st = (openStatement nameEsc cur, gs.map (statementOf nameEsc)) ∧
      (gs ++ [cur]).flatten = ts ∧ Greedy B nameEsc (gs ++ [cur])

/-- The table has no cursor and no column types yet, and `Init` will open the
cursor `cur`: the query succeeds with `cur`, which reports at least one column
and its column types. -/
def Opens (t : table) (cur : Rows) : Prop :=
  t.rows = none ∧ t.types = [] ∧
    (t.data.Connection.Query ("SELECT * FROM ".toList ++ NameEsc t)).1 = Except.ok cur ∧
    (∃ c cs, cur.Columns = Except.ok (c :: cs)) ∧ ∃ tt, cur.ColumnTypes = Except.ok tt

/-- The fetches do not start with a row read without error: the cursor is
exhausted, or the next fetch fails. -/
def Stops : List Fetch → Prop
  | Fetch.ok _ :: _ => False
  | _ => True

/-- The error recorded in `table.Err` when `Next` meets the fetches `tail`, `err`
being recorded before. -/
def endErr (err : Option Error) : List Fetch → Option Error
  | Fetch.scanErr e :: _ => some e
  | Fetch.rowsErr _ e :: _ => some e
  | _ => err

/-- The cursor of the table when `Next` returns false on the fetches `tail` of
`cur`: nil after exhaustion, still set after a failed fetch. -/
def endRows (cur : Rows) : List Fetch → Option Rows
  | [] => none
  | _ :: rest => some { cur with fetches := rest }

/-- The connection when `Next` returns false on the fetches `tail`: the cursor is
closed after exhaustion only. -/
def endConn (db : DB) : List Fetch → DB
  | [] => db.closeRows
  | _ :: _ => db

/-- The queries `q1` are the queries `q0` followed by queries that satisfy `P`. -/
def Extends (P : Bytes → Prop) (q0 q1 : List Bytes) : Prop :=
  ∃ extra, q1 = q0 ++ extra ∧ ∀ q ∈ extra, P q

/-- The query `q` is one of the two queries of the section of the table `name`:
for its creation statement, or for its rows. -/
def QueryOf (name q : Bytes) : Prop :=
  q = "SHOW CREATE TABLE ".toList ++ ("`".toList ++ name ++ "`".toList) ∨
    q = "SELECT * FROM ".toList ++ ("`".toList ++ name ++ "`".toList)

/-- The error a fetch ends with, if any. -/
def Fetch.failure : Fetch → Option Error
  | Fetch.ok _ => none
  | Fetch.scanErr e => some e
  | Fetch.rowsErr _ e => some e

/-- The tuple `RowBuffer` produces once `Scan` has stored the row `r` in
`table.values`. -/
def encodeRow (sanitize : Bytes → Bytes) (t : table) (r : List Value) : Bytes :=
  RowBuffer sanitize { t with values := r }

/-! ## Concrete tables -/

/-- The rows `(1,'a')`, `(2,'bb')`, `(3,'ccc')` of the scenario. -/
def scenarioRows : List (List Value) :=
  [[Value.NullInt64 1 true, Value.NullString "a".toList true],
   [Value.NullInt64 2 true, Value.NullString "bb".toList true],
   [Value.NullInt64 3 true, Value.NullString "ccc".toList true]]

/-- A cursor over two columns, an integer and a text, that holds `fetches`. -/
def scenarioCursor (fetches : List Fetch) : Rows :=
  { Columns := Except.ok ["id".toList, "s".toList]
    ColumnTypes := Except.ok
      [ColumnType.mk "INT".toList (some Kind.Int64), ColumnType.mk "VARCHAR".toList none]
    fetches := fetches }

/-- The table `t` of a database that answers every query with the cursor `cur`,
with the given `MaxAllowedPacket`. -/
def tableOver (cur : Rows) (maxAllowedPacket : Int) : table :=
  createTable
    { Connection := { respond := fun _ _ => Except.ok cur, queries := [], closed := 0 }
      IgnoreTables := []
      MaxAllowedPacket := maxAllowedPacket
      CharsetName := "utf8".toList }
    "t".toList

/-- The table of the scenario: the three rows, read without error. -/
def scenarioTable (maxAllowedPacket : Int) : table :=
  tableOver (scenarioCursor (scenarioRows.map Fetch.ok)) maxAllowedPacket

/-- A cursor that yields the row `(1,'a')` and then fails to scan the next one. -/
def failingCursor : Rows :=
  scenarioCursor
    [Fetch.ok [Value.NullInt64 1 true, Value.NullString "a".toList true],
     Fetch.scanErr "sql: Scan error".toList,
     Fetch.ok [Value.NullInt64 3 true, Value.NullString "ccc".toList true]]

/-- The table over `failingCursor`, with the default `MaxAllowedPacket`. -/
def failingTable : table :=
  tableOver failingCursor defaultMaxAllowedPacket

/-- The table over the single row `(1,'a')`, with the given `MaxAllowedPacket`. -/
def singleRowTable (maxAllowedPacket : Int) : table :=
  tableOver
    (scenarioCursor [Fetch.ok [Value.NullInt64 1 true, Value.NullString "a".toList true]])
    maxAllowedPacket

/-- Four rows, the third with a tuple of 42 bytes, over the budget of 39. -/
def oversizedRows : List (List Value) :=
  [[Value.NullInt64 1 true, Value.NullString "a".toList true],
   [Value.NullInt64 2 true, Value.NullString "bb".toList true],
   [Value.NullInt64 3 true,
    Value.NullString "cccccccccccccccccccccccccccccccccccc".toList true],
   [Value.NullInt64 4 true, Value.NullString "d".toList true]]

/-- The table over `oversizedRows`, with `MaxAllowedPacket = 40`. -/
def oversizedTable : table :=
  tableOver (scenarioCursor (oversizedRows.map Fetch.ok)) 40

/-- A cursor that opens and reports no column. -/
def noColumnsCursor : Rows :=
  { Columns := Except.ok []
    ColumnTypes := Except.ok []
    fetches := [] }

/-- The database type names of the binary large object types of MySQL:
`TINYBLOB`, `BLOB`, `MEDIUMBLOB` and `LONGBLOB`. -/
def denotesBlob (name : Bytes) : Bool :=
  decide (name ∈ ["TINYBLOB".toList, "BLOB".toList, "MEDIUMBLOB".toList, "LONGBLOB".toList])

/-- Columns of binary large object types under names other than `BLOB`: a long
and a medium blob scanned as byte slices, a tiny blob scanned as a signed
integer. -/
def blobColumnTypes : List ColumnType :=
  [ColumnType.mk "LONGBLOB".toList (some Kind.Slice),
   ColumnType.mk "MEDIUMBLOB".toList (some Kind.Slice),
   ColumnType.mk "TINYBLOB".toList (some Kind.Int64)]

/-- A cursor over columns of the types `blobColumnTypes`, without rows. -/
def blobCursor : Rows :=
  { Columns := Except.ok (blobColumnTypes.map (fun tp => tp.DatabaseTypeName))
    ColumnTypes := Except.ok blobColumnTypes
    fetches := [] }

/-- Column types of each kind: a blob whose scan type is a signed integer, a
blob, the signed integers, an unsigned integer, a binary string, a text without
scan type, a long blob, a tiny blob whose scan type is a signed integer, and
`blob` in lower case. -/
def mixedColumnTypes : List ColumnType :=
  [ColumnType.mk "BLOB".toList (some Kind.Int64), ColumnType.mk "BLOB".toList (some Kind.Slice),
   ColumnType.mk "INT".toList (some Kind.Int), ColumnType.mk "TINYINT".toList (some Kind.Int8),
   ColumnType.mk "SMALLINT".toList (some Kind.Int16),
   ColumnType.mk "MEDIUMINT".toList (some Kind.Int32),
   ColumnType.mk "BIGINT".toList (some Kind.Int64),
   ColumnType.mk "UNSIGNED INT".toList (some Kind.Uint32),
   ColumnType.mk "VARBINARY".toList (some Kind.Slice), ColumnType.mk "TEXT".toList none,
   ColumnType.mk "LONGBLOB".toList (some Kind.Slice),
   ColumnType.mk "TINYBLOB".toList (some Kind.Int64),
   ColumnType.mk "blob".toList (some Kind.Slice)]

/-- A cursor over columns of the types `mixedColumnTypes`, without rows. -/
def mixedCursor : Rows :=
  { Columns := Except.ok (mixedColumnTypes.map (fun tp => tp.DatabaseTypeName))
    ColumnTypes := Except.ok mixedColumnTypes
    fetches := [] }

/-- A database that answers every query with one row: the table name
`orders_old` and a creation statement. -/
def ordersData : Data :=
  { Connection :=
      { respond := fun _ _ => Except.ok (scenarioCursor
          [Fetch.ok [Value.NullString "orders_old".toList true,
            Value.NullString "CREATE TABLE `orders_old` (`id` int)".toList true]])
        queries := []
        closed := 0 }
    IgnoreTables := []
    MaxAllowedPacket := 40
    CharsetName := "utf8".toList }

/-- The rows of a table listing: four names and a NULL. -/
def listedNames : List (Bytes × Bool) :=
  [("users".toList, true), ("secrets".toList, true), ([], false), ("orders".toList, true),
   ("Secrets".toList, true)]

/-- A database that answers every query with the listing `listedNames`, and the
ignore list `secrets`. -/
def listingData : Data :=
  { Connection :=
      { respond := fun _ _ => Except.ok (scenarioCursor
          (listedNames.map (fun x => Fetch.ok [Value.NullString x.1 x.2])))
        queries := []
        closed := 0 }
    IgnoreTables := ["secrets".toList]
    MaxAllowedPacket := 40
    CharsetName := "utf8".toList }

/-- A row with a NULL in each of the three column types, between two values. -/
def nullRow : List Value :=
  [Value.NullInt64 7 true, Value.NullInt64 0 false, Value.NullString [] false,
   Value.RawBytes [], Value.NullString "x".toList true]

/-! ## The row encoder -/

theorem intercalate_cons_eq (sep x : Bytes) (xs : List Bytes) :
    List.intercalate sep (x :: xs) = x ++ (xs.map (fun y => sep ++ y)).flatten := by
  induction xs generalizing x with
  | nil => simp [List.intercalate]
  | cons y ys ih =>
    have h := ih y
    simp only [List.intercalate] at h ⊢
    simp [List.intersperse, h]

theorem intercalate_concat (sep t : Bytes) (g : List Bytes) (hg : g ≠ []) :
    List.intercalate sep (g ++ [t]) = List.intercalate sep g ++ sep ++ t := by
  cases g with
  | nil => exact absurd rfl hg
  | cons x xs => simp [intercalate_cons_eq, List.append_assoc]

theorem intercalate_single (sep t : Bytes) : List.intercalate sep [t] = t := by
  simp [List.intercalate]

theorem rowLoop_succ (sanitize : Bytes → Bytes) (vals : List Value) (key : Nat) (b : Bytes) :
    rowLoop sanitize (key + 1) vals b
      = b ++ (vals.map (fun v => ",".toList ++ writeValue sanitize v)).flatten := by
  induction vals generalizing key b with
  | nil => simp [rowLoop]
  | cons v vs ih => simp [rowLoop, ih, List.append_assoc]

theorem rowLoop_zero (sanitize : Bytes → Bytes) (vals : List Value) (b : Bytes) :
    rowLoop sanitize 0 vals b
      = b ++ List.intercalate ",".toList (vals.map (writeValue sanitize)) := by
  cases vals with
  | nil => simp [rowLoop, List.intercalate]
  | cons v vs =>
    simp [rowLoop, rowLoop_succ, intercalate_cons_eq, List.append_assoc, List.map_map,
      Function.comp_def]

theorem RowBuffer_eq_tupleOf (sanitize : Bytes → Bytes) (t : table) :
    RowBuffer sanitize t = tupleOf sanitize t.values := by
  simp [RowBuffer, tupleOf, rowLoop_zero]

theorem writeValue_absent (sanitize : Bytes → Bytes) (v : Value) (h : v.isAbsent = true) :
    writeValue sanitize v = nullType := by
  cases v with
  | nil => rfl
  | NullString s valid => cases valid <;> simp_all [Value.isAbsent, writeValue]
  | NullInt64 i valid => cases valid <;> simp_all [Value.isAbsent, writeValue]
  | RawBytes b => cases b <;> simp_all [Value.isAbsent, writeValue]
  | other s => simp [Value.isAbsent] at h

theorem digitChar_isDigit (d : Nat) (h : d < 10) : (Nat.digitChar d).isDigit = true := by
  interval_cases d <;> decide

theorem toDigitsCore_isDigit (fuel : Nat) :
    ∀ (n : Nat) (ds : List Char), (∀ c ∈ ds, c.isDigit = true) →
      ∀ c ∈ Nat.toDigitsCore 10 fuel n ds, c.isDigit = true := by
  induction fuel with
  | zero => intro n ds hds c hc; exact hds c (by simpa [Nat.toDigitsCore] using hc)
  | succ k ih =>
    intro n ds hds c hc
    have hd : (Nat.digitChar (n % 10)).isDigit = true :=
      digitChar_isDigit _ (Nat.mod_lt _ (by decide))
    have hcons : ∀ c ∈ Nat.digitChar (n % 10) :: ds, c.isDigit = true := by
      intro c hc
      rcases List.mem_cons.mp hc with h | h
      · rw [h]; exact hd
      · exact hds c h
    simp only [Nat.toDigitsCore] at hc
    split at hc
    · exact hcons c hc
    · exact ih _ _ hcons c hc

theorem toDigits_isDigit (m : Nat) : ∀ c ∈ Nat.toDigits 10 m, c.isDigit = true := by
  intro c hc
  exact toDigitsCore_isDigit _ _ [] (by simp) c hc

/-! ## The batching loop on encoded rows -/

theorem feed_concat (M : Int) (ne : Bytes) (st : Bytes × List Bytes) (ts : List Bytes)
    (t : Bytes) : feed M ne st (ts ++ [t]) = streamStep M ne (feed M ne st ts) t := by
  simp [feed, List.foldl_append]

theorem preamble_length (ne : Bytes) : (preamble ne).length = ne.length + 20 := by
  simp [preamble]

theorem openStatement_length_pos (ne : Bytes) (g : List Bytes) :
    (openStatement ne g).length ≠ 0 := by
  simp [openStatement, preamble]

theorem openStatement_single (ne t : Bytes) : openStatement ne [t] = preamble ne ++ t := by
  simp [openStatement, intercalate_single]

theorem openStatement_concat (ne t : Bytes) (g : List Bytes) (hg : g ≠ []) :
    openStatement ne (g ++ [t]) = openStatement ne g ++ ",".toList ++ t := by
  simp [openStatement, intercalate_concat _ _ _ hg, List.append_assoc]

theorem streamStep_empty (M : Int) (ne : Bytes) (out : List Bytes) (b : Bytes) :
    streamStep M ne ([], out) b = (preamble ne ++ b, out) := by
  simp [streamStep, preamble]

theorem streamStep_seal (M : Int) (ne insert : Bytes) (out : List Bytes) (b : Bytes)
    (hne : insert.length ≠ 0) (h : budget M < ((insert.length + b.length : Nat) : Int)) :
    streamStep M ne (insert, out) b = (preamble ne ++ b, out ++ [insert ++ ";".toList]) := by
  have hc : insert.length ≠ 0 ∧ ((insert.length + b.length : Nat) : Int) > budget M :=
    ⟨hne, h⟩
  simp only [streamStep, if_pos hc]
  simp [preamble]

theorem streamStep_join (M : Int) (ne insert : Bytes) (out : List Bytes) (b : Bytes)
    (hne : insert.length ≠ 0) (h : ((insert.length + b.length : Nat) : Int) ≤ budget M) :
    streamStep M ne (insert, out) b = (insert ++ ",".toList ++ b, out) := by
  have hc : ¬ (insert.length ≠ 0 ∧ ((insert.length + b.length : Nat) : Int) > budget M) := by
    intro hh; exact absurd hh.2 (not_lt.mpr h)
  simp only [streamStep, if_neg hc, if_neg hne]

theorem within_single (B : Int) (ne t : Bytes) : Within B ne [t] := by
  intro a u b h ha
  cases a with
  | nil => exact absurd rfl ha
  | cons x xs => simp at h

theorem within_concat (B : Int) (ne t : Bytes) (g : List Bytes) (hw : Within B ne g)
    (ht : (((openStatement ne g).length + t.length : Nat) : Int) ≤ B) :
    Within B ne (g ++ [t]) := by
  intro a u b h ha
  rcases List.eq_nil_or_concat b with hb | ⟨b1, x, hb⟩
  · subst hb
    have h2 : g ++ [t] = a ++ [u] := h
    have h3 := List.append_inj' h2 rfl
    obtain ⟨h4, h5⟩ := h3
    simp at h5
    subst h4; subst h5
    exact ht
  · rw [List.concat_eq_append] at hb
    subst hb
    have h2 : g ++ [t] = (a ++ u :: b1) ++ [x] := by simpa [List.append_assoc] using h
    have h3 := List.append_inj' h2 rfl
    exact hw a u b1 h3.1 ha

theorem sealedBefore_concat (B : Int) (ne t : Bytes) (g cur : List Bytes)
    (h : SealedBefore B ne g cur) : SealedBefore B ne g (cur ++ [t]) := by
  obtain ⟨u, r, hr, hlt⟩ := h
  exact ⟨u, r ++ [t], by simp [hr], hlt⟩

theorem greedy_seal (B : Int) (ne t : Bytes) (gs : List (List Bytes)) (cur : List Bytes)
    (hg : Greedy B ne (gs ++ [cur]))
    (hlt : B < (((openStatement ne cur).length + t.length : Nat) : Int)) :
    Greedy B ne ((gs ++ [cur]) ++ [[t]]) := by
  obtain ⟨h1, h2, h3⟩ := hg
  refine ⟨?_, ?_, ?_⟩
  · intro g hgm
    rcases List.mem_append.mp hgm with h | h
    · exact h1 g h
    · simp at h; subst h; simp
  · intro g hgm
    rcases List.mem_append.mp hgm with h | h
    · exact h2 g h
    · simp at h; subst h; exact within_single B ne t
  · rw [List.chain'_append]
    refine ⟨h3, List.chain'_singleton _, ?_⟩
    intro x hx y hy
    simp at hx hy
    subst hx; subst hy
    exact ⟨t, [], rfl, hlt⟩

theorem greedy_join (B : Int) (ne t : Bytes) (gs : List (List Bytes)) (cur : List Bytes)
    (hg : Greedy B ne (gs ++ [cur]))
    (hle : (((openStatement ne cur).length + t.length : Nat) : Int) ≤ B) :
    Greedy B ne (gs ++ [cur ++ [t]]) := by
  obtain ⟨h1, h2, h3⟩ := hg
  refine ⟨?_, ?_, ?_⟩
  · intro g hgm
    rcases List.mem_append.mp hgm with h | h
    · exact h1 g (List.mem_append.mpr (Or.inl h))
    · simp at h; subst h; simp
  · intro g hgm
    rcases List.mem_append.mp hgm with h | h
    · exact h2 g (List.mem_append.mpr (Or.inl h))
    · simp at h; subst h
      exact within_concat B ne t cur (h2 cur (by simp)) hle
  · rw [List.chain'_append] at h3 ⊢
    refine ⟨h3.1, List.chain'_singleton _, ?_⟩
    intro x hx y hy
    simp at hy
    subst hy
    exact sealedBefore_concat B ne t x cur (h3.2.2 x hx cur (by simp))

theorem loopInv_step (M : Int) (ne : Bytes) (ts : List Bytes) (st : Bytes × List Bytes)
    (t : Bytes) (h : LoopInv (budget M) ne ts st) :
    LoopInv (budget M) ne (ts ++ [t]) (streamStep M ne st t) := by
  right
  rcases h with ⟨hts, hst⟩ | ⟨gs, cur, hcur, hst, hflat, hg⟩
  · subst hts; subst hst
    refine ⟨[], [t], by simp, ?_, by simp, ?_⟩
    · rw [streamStep_empty, openStatement_single]; rfl
    · refine ⟨by simp, ?_, by simp⟩
      intro g hgm
      simp at hgm; subst hgm
      exact within_single _ ne t
  · subst hst
    by_cases hlt : budget M < (((openStatement ne cur).length + t.length : Nat) : Int)
    · refine ⟨gs ++ [cur], [t], by simp, ?_, ?_, greedy_seal _ ne t gs cur hg hlt⟩
      · rw [streamStep_seal M ne _ _ t (openStatement_length_pos ne cur) hlt,
          openStatement_single]
        simp [statementOf]
      · rw [List.flatten_append, hflat]; simp
    · have hle := not_lt.mp hlt
      refine ⟨gs, cur ++ [t], by simp, ?_, ?_, greedy_join _ ne t gs cur hg hle⟩
      · rw [streamStep_join M ne _ _ t (openStatement_length_pos ne cur) hle,
          openStatement_concat ne t cur hcur]
      · rw [← hflat]; simp

theorem loopInv_feed (M : Int) (ne : Bytes) (ts : List Bytes) :
    LoopInv (budget M) ne ts (feed M ne ([], []) ts) := by
  induction ts using List.reverseRecOn with
  | nil => left; exact ⟨rfl, rfl⟩
  | append_singleton ts t ih =>
    rw [feed_concat]
    exact loopInv_step M ne ts _ t ih

/-- The statements of the loop on the tuples `ts`, flushed: greedy groups of `ts`. -/
theorem feed_groups (M : Int) (ne : Bytes) (ts : List Bytes) :
    ∃ G : List (List Bytes), streamFlush (feed M ne ([], []) ts) = G.map (statementOf ne) ∧
      G.flatten = ts ∧ Greedy (budget M) ne G := by
  rcases loopInv_feed M ne ts with ⟨hts, hst⟩ | ⟨gs, cur, hcur, hst, hflat, hg⟩
  · refine ⟨[], ?_, by simp [hts], by simp [Greedy]⟩
    rw [hst]; simp [streamFlush]
  · refine ⟨gs ++ [cur], ?_, hflat, hg⟩
    rw [hst]
    simp [streamFlush, openStatement_length_pos, statementOf, openStatement, preamble]

/-! ## The loop of `Stream` on a cursor -/

theorem Init_of_opens (t : table) (cur : Rows) (h : Opens t cur) :
    ∃ t1, Init t = (none, t1) ∧ t1.rows = some cur ∧ t1.Name = t.Name ∧ t1.Err = t.Err ∧
      t1.data.MaxAllowedPacket = t.data.MaxAllowedPacket := by
  obtain ⟨_, htypes, hq, ⟨c, cs, hcols⟩, ⟨tt, htt⟩⟩ := h
  have hq2 : t.data.Connection.Query ("SELECT * FROM ".toList ++ NameEsc t)
      = (Except.ok cur, (t.data.Connection.Query ("SELECT * FROM ".toList ++ NameEsc t)).2) := by
    rw [← hq]
  refine ⟨{ t with
      rows := some cur,
      data := { t.data with
        Connection := (t.data.Connection.Query ("SELECT * FROM ".toList ++ NameEsc t)).2 },
      types := tt.map columnType,
      values := (tt.map columnType).map zeroValue }, ?_, rfl, rfl, rfl, rfl⟩
  unfold Init
  rw [hq2]
  simp [htypes, hcols, htt]

theorem Next_of_opens (t : table) (cur : Rows) (h : Opens t cur) :
    Next t = Next (Init t).2 := by
  obtain ⟨t1, hinit, hrows, -⟩ := Init_of_opens t cur h
  have hnone : t.rows = none := h.1
  rw [hinit]
  simp only [Next, hnone, hinit, hrows]

theorem pending_of_opens (t : table) (cur : Rows) (h : Opens t cur) :
    pending t = cur.fetches.length := by
  obtain ⟨t1, hinit, hrows, -⟩ := Init_of_opens t cur h
  have hnone : t.rows = none := h.1
  simp [pending, hnone, hinit, hrows]

theorem streamLoop_of_opens (sanitize : Bytes → Bytes) (t : table) (cur : Rows)
    (h : Opens t cur) (fuel : Nat) (st : Bytes × List Bytes) :
    streamLoop sanitize fuel t st = streamLoop sanitize fuel (Init t).2 st := by
  cases fuel with
  | zero => rfl
  | succ k => simp only [streamLoop, Next_of_opens t cur h]

theorem Next_fetch_ok (t : table) (cur : Rows) (vals : List Value) (rest : List Fetch)
    (hrows : t.rows = some cur) (hf : cur.fetches = Fetch.ok vals :: rest) :
    Next t = (true, { t with rows := some { cur with fetches := rest }, values := vals }) := by
  simp only [Next, nextRow, hrows, hf]

theorem Next_stops (t : table) (cur : Rows) (hrows : t.rows = some cur)
    (hstop : Stops cur.fetches) :
    (Next t).1 = false ∧ (Next t).2.Err = endErr t.Err cur.fetches ∧
      (Next t).2.Name = t.Name ∧
      (Next t).2.data.MaxAllowedPacket = t.data.MaxAllowedPacket := by
  cases hf : cur.fetches with
  | nil => simp [Next, nextRow, hrows, hf, endErr]
  | cons f rest =>
    cases f with
    | ok vals => rw [hf] at hstop; exact absurd hstop (by simp [Stops])
    | scanErr e => simp [Next, nextRow, hrows, hf, endErr]
    | rowsErr vals e => simp [Next, nextRow, hrows, hf, endErr]

theorem streamLoop_stop (sanitize : Bytes → Bytes) (t : table) (k : Nat)
    (st : Bytes × List Bytes) (h : (Next t).1 = false) :
    streamLoop sanitize (k + 1) t st = some (st, (Next t).2) := by
  have h2 : Next t = (false, (Next t).2) := by rw [← h]
  rw [streamLoop, h2]

theorem streamLoop_next (sanitize : Bytes → Bytes) (t t1 : table) (k : Nat)
    (st : Bytes × List Bytes) (h : Next t = (true, t1)) :
    streamLoop sanitize (k + 1) t st
      = streamLoop sanitize k t1
          (streamStep t1.data.MaxAllowedPacket (NameEsc t1) st (RowBuffer sanitize t1)) := by
  rw [streamLoop, h]

theorem streamLoop_rows (sanitize : Bytes → Bytes) (M : Int) (name : Bytes)
    (rows : List (List Value)) :
    ∀ (t : table) (cur : Rows) (tail : List Fetch) (st : Bytes × List Bytes) (fuel : Nat),
      t.rows = some cur → cur.fetches = rows.map Fetch.ok ++ tail → Stops tail →
      t.data.MaxAllowedPacket = M → t.Name = name → rows.length < fuel →
      ∃ t1, streamLoop sanitize fuel t st
          = some (feed M ("`".toList ++ name ++ "`".toList) st (rows.map (tupleOf sanitize)), t1) ∧
        t1.Err = endErr t.Err tail ∧ t1.Name = name ∧ t1.data.MaxAllowedPacket = M := by
  induction rows with
  | nil =>
    intro t cur tail st fuel hrows hf hstop hM hname hfuel
    obtain ⟨k, rfl⟩ : ∃ k, fuel = k + 1 := ⟨fuel - 1, by omega⟩
    simp only [List.map_nil, List.nil_append] at hf
    rw [← hf] at hstop
    obtain ⟨n1, n2, n3, n4⟩ := Next_stops t cur hrows hstop
    refine ⟨(Next t).2, ?_, ?_, ?_, ?_⟩
    · rw [streamLoop_stop sanitize t k st n1]; rfl
    · rw [n2, hf]
    · rw [n3, hname]
    · rw [n4, hM]
  | cons r rs ih =>
    intro t cur tail st fuel hrows hf hstop hM hname hfuel
    obtain ⟨k, rfl⟩ : ∃ k, fuel = k + 1 := ⟨fuel - 1, by simp at hfuel; omega⟩
    simp only [List.map_cons, List.cons_append] at hf
    have hk : rs.length < k := by simp at hfuel; omega
    obtain ⟨T, hT⟩ : ∃ T : table,
        T = { t with rows := some { cur with fetches := rs.map Fetch.ok ++ tail }, values := r } :=
      ⟨_, rfl⟩
    have hnext : Next t = (true, T) := by rw [hT]; exact Next_fetch_ok t cur r _ hrows hf
    have e1 : NameEsc T = "`".toList ++ name ++ "`".toList := by rw [hT, ← hname]; rfl
    have e2 : T.data.MaxAllowedPacket = M := by rw [hT]; exact hM
    have e3 : RowBuffer sanitize T = tupleOf sanitize r := by
      rw [RowBuffer_eq_tupleOf, hT]
    have e4 : T.Err = t.Err := by rw [hT]
    obtain ⟨t1, h1, h2, h3, h4⟩ :=
      ih T { cur with fetches := rs.map Fetch.ok ++ tail } tail
        (streamStep M ("`".toList ++ name ++ "`".toList) st (tupleOf sanitize r)) k
        (by rw [hT]) rfl hstop e2 (by rw [hT]; exact hname) hk
    refine ⟨t1, ?_, by rw [h2, e4], h3, h4⟩
    rw [streamLoop_next sanitize t T k st hnext, e1, e2, e3, h1]
    rfl

/-- The run of `Stream` on a table whose cursor opens and holds the rows `rows`
followed by fetches that stop the loop. -/
theorem Stream_rows (sanitize : Bytes → Bytes) (t : table) (cur : Rows)
    (rows : List (List Value)) (tail : List Fetch) (hopen : Opens t cur)
    (hf : cur.fetches = rows.map Fetch.ok ++ tail) (hstop : Stops tail) :
    ∃ t1, Stream sanitize t
        = some (streamFlush (feed t.data.MaxAllowedPacket (NameEsc t) ([], [])
            (rows.map (tupleOf sanitize))), t1) ∧
      t1.Err = endErr t.Err tail := by
  obtain ⟨t0, hinit, hrows, hname, herr, hM⟩ := Init_of_opens t cur hopen
  have hfuel : rows.length < pending t + 1 := by
    rw [pending_of_opens t cur hopen, hf]; simp; omega
  have hinit2 : (Init t).2 = t0 := by rw [hinit]
  obtain ⟨t1, h1, h2, -⟩ := streamLoop_rows sanitize t.data.MaxAllowedPacket t.Name rows t0 cur
    tail ([], []) (pending t + 1) hrows hf hstop hM hname hfuel
  refine ⟨t1, ?_, by rw [h2, herr]⟩
  simp only [Stream, streamLoop_of_opens sanitize t cur hopen, hinit2, h1, NameEsc]

theorem encodeRow_eq_tupleOf (sanitize : Bytes → Bytes) (t : table) (r : List Value) :
    encodeRow sanitize t r = tupleOf sanitize r := by
  rw [encodeRow, RowBuffer_eq_tupleOf]

theorem map_encodeRow (sanitize : Bytes → Bytes) (t : table) (rows : List (List Value)) :
    rows.map (encodeRow sanitize t) = rows.map (tupleOf sanitize) := by
  apply List.map_congr_left
  intro r _
  exact encodeRow_eq_tupleOf sanitize t r

/-- The run of `Stream` on rows read without error: greedy groups of the tuples. -/
theorem Stream_groups (sanitize : Bytes → Bytes) (t : table) (cur : Rows)
    (rows : List (List Value)) (hopen : Opens t cur)
    (hrows : cur.fetches = rows.map Fetch.ok) :
    ∃ (G : List (List Bytes)) (t1 : table),
      Stream sanitize t = some (G.map (statementOf (NameEsc t)), t1) ∧
      G.flatten = rows.map (encodeRow sanitize t) ∧
      Greedy (budget t.data.MaxAllowedPacket) (NameEsc t) G ∧ t1.Err = t.Err := by
  obtain ⟨t1, h1, h2⟩ := Stream_rows sanitize t cur rows [] hopen (by simp [hrows]) (by simp [Stops])
  obtain ⟨G, g1, g2, g3⟩ :=
    feed_groups t.data.MaxAllowedPacket (NameEsc t) (rows.map (tupleOf sanitize))
  refine ⟨G, t1, ?_, ?_, g3, ?_⟩
  · rw [h1, g1]
  · rw [g2, map_encodeRow]
  · rw [h2]; rfl

theorem statementOf_length (ne : Bytes) (g : List Bytes) :
    (statementOf ne g).length = (openStatement ne g).length + 1 := by
  simp [statementOf]

theorem openStatement_concat_length (ne t : Bytes) (g : List Bytes) (hg : g ≠ []) :
    (openStatement ne (g ++ [t])).length = (openStatement ne g).length + 1 + t.length := by
  rw [openStatement_concat ne t g hg]; simp; omega

theorem feed_fits (M : Int) (ne : Bytes) (ts : List Bytes) :
    ts ≠ [] → ((statementOf ne ts).length : Int) ≤ budget M →
      feed M ne ([], []) ts = (openStatement ne ts, []) := by
  induction ts using List.reverseRecOn with
  | nil => intro h; exact absurd rfl h
  | append_singleton ts t ih =>
    intro _ hfit
    rw [feed_concat]
    by_cases hts : ts = []
    · subst hts
      rw [show feed M ne ([], []) [] = ([], []) from rfl, streamStep_empty]
      simp [openStatement_single]
    · rw [statementOf_length, openStatement_concat_length ne t ts hts] at hfit
      have hprev : ((statementOf ne ts).length : Int) ≤ budget M := by
        rw [statementOf_length]; push_cast at hfit ⊢; omega
      rw [ih hts hprev,
        streamStep_join M ne _ _ t (openStatement_length_pos ne ts) (by push_cast at hfit ⊢; omega),
        openStatement_concat ne t ts hts]

theorem feed_nonempty (M : Int) (ne : Bytes) (ts : List Bytes) (h : ts ≠ []) :
    (feed M ne ([], []) ts).1.length ≠ 0 := by
  rcases loopInv_feed M ne ts with ⟨hts, _⟩ | ⟨gs, cur, _, hst, _, _⟩
  · exact absurd hts h
  · rw [hst]; exact openStatement_length_pos ne cur

theorem greedy_oversized_alone (B : Int) (ne : Bytes) (G : List (List Bytes))
    (hG : Greedy B ne G) (g : List Bytes) (hg : g ∈ G) (u : Bytes) (hu : u ∈ g)
    (hover : B < (u.length : Int)) : g = [u] := by
  obtain ⟨a, b, hab⟩ := List.append_of_mem hu
  have hw := hG.2.1 g hg
  have ha : a = [] := by
    by_contra hne
    have := hw a u b hab hne
    push_cast at this
    omega
  subst ha
  cases b with
  | nil => simpa using hab
  | cons v b1 =>
    have := hw [u] v b1 (by simpa using hab) (by simp)
    rw [openStatement_single] at this
    simp at this
    omega

theorem budget_eq_sub_one (M : Int) (hlo : -9223372036854775808 < M)
    (hhi : M ≤ 9223372036854775807) : budget M = M - 1 := by
  unfold budget wrapInt
  omega

theorem Next_true_pending (t t1 : table) (h : Next t = (true, t1)) :
    pending t1 < pending t := by
  have key : ∀ u : table, nextRow u = (true, t1) →
      ∃ rows, u.rows = some rows ∧ pending t1 < rows.fetches.length := by
    intro u hu
    unfold nextRow at hu
    cases hr : u.rows with
    | none => rw [hr] at hu; simp at hu
    | some rows =>
      rw [hr] at hu
      refine ⟨rows, rfl, ?_⟩
      cases hf : rows.fetches with
      | nil => simp [hf] at hu
      | cons f rest =>
        cases f with
        | ok vals =>
          simp only [hf, Prod.mk.injEq, true_and] at hu
          rw [← hu]
          simp [pending]
        | scanErr e => simp [hf] at hu
        | rowsErr vals e => simp [hf] at hu
  cases hr : t.rows with
  | some rows =>
    have hn : Next t = nextRow t := by simp only [Next, hr]
    rw [hn] at h
    obtain ⟨rows2, h2, h3⟩ := key t h
    rw [hr] at h2
    cases h2
    simpa [pending, hr] using h3
  | none =>
    cases hi : Init t with
    | mk err t0 =>
      cases err with
      | some e => simp [Next, hr, hi] at h
      | none =>
        have hn : Next t = nextRow t0 := by simp only [Next, hr, hi]
        rw [hn] at h
        obtain ⟨rows2, h2, h3⟩ := key t0 h
        simpa [pending, hr, hi, h2] using h3

theorem streamLoop_total (sanitize : Bytes → Bytes) (fuel : Nat) :
    ∀ (t : table) (st : Bytes × List Bytes), pending t < fuel →
      ∃ r, streamLoop sanitize fuel t st = some r := by
  induction fuel with
  | zero => intro t st h; omega
  | succ k ih =>
    intro t st h
    cases hn : Next t with
    | mk b t1 =>
      cases b with
      | false => exact ⟨_, by rw [streamLoop, hn]⟩
      | true =>
        have hlt := Next_true_pending t t1 hn
        obtain ⟨r, hr⟩ := ih t1
          (streamStep t1.data.MaxAllowedPacket (NameEsc t1) st (RowBuffer sanitize t1))
          (by omega)
        exact ⟨r, by rw [streamLoop, hn]; exact hr⟩

/-- The goroutine of `Stream` ends on every table: `pending t + 1` calls of `Next`
are enough. -/
theorem Stream_total (sanitize : Bytes → Bytes) (t : table) :
    ∃ r, Stream sanitize t = some r := by
  obtain ⟨r, hr⟩ := streamLoop_total sanitize (pending t + 1) t ([], []) (by omega)
  exact ⟨(streamFlush r.1, r.2), by simp only [Stream, hr]⟩

/-! ## The claims -/

/-- C8. For every row, `RowBuffer` (and `RowValues`) returns `(` followed by the
renderings of the values, one per column and in column order, joined by single
commas, followed by `)`: for a row `v :: vs` that is `(`, the rendering of `v`,
then `,` and a rendering for each value of `vs`, then `)`. -/
theorem RowBuffer_is_comma_joined_tuple (sanitize : Bytes → Bytes) (t : table) :
    RowBuffer sanitize t
        = "(".toList ++ List.intercalate ",".toList (t.values.map (writeValue sanitize))
            ++ ")".toList ∧
      RowValues sanitize t = RowBuffer sanitize t ∧
      (t.values.map (writeValue sanitize)).length = t.values.length ∧
      ∀ v vs, t.values = v :: vs →
        RowBuffer sanitize t
          = "(".toList ++ writeValue sanitize v
              ++ (vs.map (fun w => ",".toList ++ writeValue sanitize w)).flatten
              ++ ")".toList := by
  refine ⟨RowBuffer_eq_tupleOf sanitize t, rfl, by simp, ?_⟩
  intro v vs h
  rw [RowBuffer_eq_tupleOf, tupleOf, h, List.map_cons, intercalate_cons_eq]
  simp [List.map_map, Function.comp_def, List.append_assoc]

/-- C9. When the value at a position of the row is absent (an invalid
`NullInt64`, an invalid `NullString`, a nil `RawBytes`), the rendering at that
position in the tuple of `RowBuffer` is exactly the unquoted `NULL`. -/
theorem RowBuffer_absent_is_NULL (sanitize : Bytes → Bytes) (t : table)
    (before after : List Value) (v : Value) (hrow : t.values = before ++ v :: after)
    (habsent : v.isAbsent = true) :
    writeValue sanitize v = "NULL".toList ∧
      RowBuffer sanitize t
        = "(".toList ++ List.intercalate ",".toList
            (before.map (writeValue sanitize) ++ "NULL".toList
              :: after.map (writeValue sanitize)) ++ ")".toList := by
  have h := writeValue_absent sanitize v habsent
  refine ⟨h, ?_⟩
  rw [RowBuffer_eq_tupleOf, tupleOf, hrow, List.map_append, List.map_cons, h]
  rfl

/-- C9, at a row with a NULL of each column type. -/
theorem RowBuffer_absent_is_NULL_witness :
    (nullRow = [Value.NullInt64 7 true, Value.NullInt64 0 false]
        ++ Value.NullString [] false :: [Value.RawBytes [], Value.NullString "x".toList true] ∧
      (Value.NullString [] false).isAbsent = true) ∧
    (writeValue id (Value.NullString [] false) = "NULL".toList ∧
      RowBuffer id { scenarioTable 40 with values := nullRow }
        = "(".toList ++ List.intercalate ",".toList
            ([Value.NullInt64 7 true, Value.NullInt64 0 false].map (writeValue id)
              ++ "NULL".toList
              :: [Value.RawBytes [], Value.NullString "x".toList true].map (writeValue id))
            ++ ")".toList) :=
  ⟨⟨rfl, rfl⟩,
    RowBuffer_absent_is_NULL id { scenarioTable 40 with values := nullRow }
      [Value.NullInt64 7 true, Value.NullInt64 0 false]
      [Value.RawBytes [], Value.NullString "x".toList true] (Value.NullString [] false) rfl rfl⟩

/-- C10. When the value at a position of the row is a valid `NullInt64` holding
`v`, the rendering at that position is the decimal representation of `v`: a `-`
when `v` is negative, then the decimal digits of its absolute value, with no
quote; `42` renders as `42`, the extreme values of `int64` by their digits, and
an invalid `NullInt64` as `NULL`. -/
theorem RowBuffer_integer_is_decimal (sanitize : Bytes → Bytes) (t : table)
    (before after : List Value) (v : Int)
    (hrow : t.values = before ++ Value.NullInt64 v true :: after) :
    RowBuffer sanitize t
        = "(".toList ++ List.intercalate ",".toList
            (before.map (writeValue sanitize) ++ fmtD v :: after.map (writeValue sanitize))
            ++ ")".toList ∧
      fmtD v = (if v < 0 then "-".toList else []) ++ Nat.toDigits 10 v.natAbs ∧
      (∀ c ∈ Nat.toDigits 10 v.natAbs, c.isDigit = true) ∧
      (∀ c ∈ fmtD v, c ∉ "'".toList) ∧
      fmtD 42 = "42".toList ∧ fmtD 0 = "0".toList ∧ fmtD (-7) = "-7".toList ∧
      fmtD 9223372036854775807 = "9223372036854775807".toList ∧
      fmtD (-9223372036854775808) = "-9223372036854775808".toList ∧
      writeValue sanitize (Value.NullInt64 v false) = "NULL".toList := by
  have hfmt : fmtD v = (if v < 0 then "-".toList else []) ++ Nat.toDigits 10 v.natAbs := by
    cases v with
    | ofNat m => simp [fmtD]
    | negSucc m =>
      have : Int.negSucc m < 0 := Int.negSucc_lt_zero m
      simp [fmtD, this, Int.natAbs]
  refine ⟨?_, hfmt, toDigits_isDigit _, ?_, by decide, by decide, by decide, by decide,
    by decide, rfl⟩
  · rw [RowBuffer_eq_tupleOf, tupleOf, hrow, List.map_append, List.map_cons]
    rfl
  · intro c hc
    rw [hfmt] at hc
    intro hq
    have hq2 : c = "'".toList.head (by decide) := by simpa using hq
    rcases List.mem_append.mp hc with h | h
    · split at h
      · have h2 : c = "-".toList.head (by decide) := by simpa using h
        rw [h2] at hq2
        exact absurd hq2 (by decide)
      · simp at h
    · have := toDigits_isDigit _ c h
      rw [hq2] at this
      exact absurd this (by decide)

/-- C10, at the row `(42,'a')`. -/
theorem RowBuffer_integer_is_decimal_witness :
    RowBuffer id
        { scenarioTable 40 with
          values := [Value.NullInt64 42 true, Value.NullString "a".toList true] }
      = "(42,'a')".toList :=
  (RowBuffer_integer_is_decimal id
    { scenarioTable 40 with
      values := [Value.NullInt64 42 true, Value.NullString "a".toList true] }
    [] [Value.NullString "a".toList true] 42 rfl).1

/-- C1, refuted as stated. In the scenario (`MaxAllowedPacket = 40`, table `t`,
rows `(1,'a')`, `(2,'bb')`, `(3,'ccc')`) every tuple has at most 39 bytes and the
first statement emitted has 40; with `MaxAllowedPacket = 8` the tuple `(1,'a')`
has 7 bytes and its statement has 31. -/
theorem Stream_statement_over_budget :
    ((∀ r ∈ scenarioRows, ((encodeRow id (scenarioTable 40) r).length : Int) ≤ 40 - 1) ∧
      emitted id (scenarioTable 40)
        = some ["INSERT INTO `t` VALUES (1,'a'),(2,'bb');".toList,
                "INSERT INTO `t` VALUES (3,'ccc');".toList] ∧
      ¬ (("INSERT INTO `t` VALUES (1,'a'),(2,'bb');".toList.length : Int) ≤ 40 - 1)) ∧
    (((encodeRow id (singleRowTable 8)
          [Value.NullInt64 1 true, Value.NullString "a".toList true]).length : Int) ≤ 8 - 1 ∧
      emitted id (singleRowTable 8) = some ["INSERT INTO `t` VALUES (1,'a');".toList] ∧
      ¬ (("INSERT INTO `t` VALUES (1,'a');".toList.length : Int) ≤ 8 - 1)) := by
  refine ⟨⟨by decide, by decide, by decide⟩, by decide, by decide, by decide⟩

/-- C1, amended. When the rows are read without error and every encoded tuple
has at most `MaxAllowedPacket-1` bytes, every statement emitted by `Stream` has at
most `len(preamble) + (MaxAllowedPacket-1) + 1` bytes, the preamble being
`INSERT INTO <name> VALUES `. -/
theorem Stream_statement_length_le (sanitize : Bytes → Bytes) (t : table) (cur : Rows)
    (rows : List (List Value)) (hopen : Opens t cur)
    (hrows : cur.fetches = rows.map Fetch.ok)
    (hfit : ∀ r ∈ rows,
      ((encodeRow sanitize t r).length : Int) ≤ budget t.data.MaxAllowedPacket) :
    ∃ (out : List Bytes) (t1 : table), Stream sanitize t = some (out, t1) ∧
      ∀ s ∈ out, (s.length : Int)
        ≤ (("INSERT INTO ".toList ++ NameEsc t ++ " VALUES ".toList).length : Int)
            + budget t.data.MaxAllowedPacket + 1 := by
  obtain ⟨G, t1, h1, h2, h3, -⟩ := Stream_groups sanitize t cur rows hopen hrows
  refine ⟨_, t1, h1, ?_⟩
  intro s hs
  obtain ⟨g, hg, rfl⟩ := List.mem_map.mp hs
  have hpre := preamble_length (NameEsc t)
  rw [show "INSERT INTO ".toList ++ NameEsc t ++ " VALUES ".toList = preamble (NameEsc t)
    from rfl, hpre]
  rcases List.eq_nil_or_concat g with hnil | ⟨a, u, hau⟩
  · exact absurd hnil (h3.1 g hg)
  · rw [List.concat_eq_append] at hau
    subst hau
    by_cases ha : a = []
    · subst ha
      have hu : u ∈ rows.map (encodeRow sanitize t) := by
        rw [← h2]
        exact List.mem_flatten.mpr ⟨[u], hg, by simp⟩
      obtain ⟨r, hr, rfl⟩ := List.mem_map.mp hu
      have := hfit r hr
      rw [statementOf_length]
      simp only [List.nil_append, openStatement_single, List.length_append, hpre]
      push_cast
      omega
    · have hw := h3.2.1 (a ++ [u]) hg a u [] rfl ha
      rw [statementOf_length, openStatement_concat_length (NameEsc t) u a ha]
      push_cast at hw ⊢
      omega

/-- C1 amended, at the scenario: both statements have at most `23 + 39 + 1`
bytes. -/
theorem Stream_statement_length_le_witness :
    ∃ (out : List Bytes) (t1 : table), Stream id (scenarioTable 40) = some (out, t1) ∧
      ∀ s ∈ out, (s.length : Int)
        ≤ (("INSERT INTO ".toList ++ NameEsc (scenarioTable 40) ++ " VALUES ".toList).length : Int)
            + budget (scenarioTable 40).data.MaxAllowedPacket + 1 :=
  Stream_statement_length_le id (scenarioTable 40) (scenarioCursor (scenarioRows.map Fetch.ok))
    scenarioRows ⟨rfl, rfl, rfl, ⟨_, _, rfl⟩, ⟨_, rfl⟩⟩ rfl (by decide)

/-- C2. When the rows are read without error, the statements emitted by `Stream`
are, for groups `G` of tuples, each `INSERT INTO <name> VALUES `, the tuples of
the group joined by `,`, and `;`; no group is empty, and the groups concatenated
in emission order are exactly the `RowBuffer` encodings of the rows in cursor
order. No error is recorded. -/
theorem Stream_statements_cover_rows (sanitize : Bytes → Bytes) (t : table) (cur : Rows)
    (rows : List (List Value)) (hopen : Opens t cur)
    (hrows : cur.fetches = rows.map Fetch.ok) :
    ∃ (G : List (List Bytes)) (t1 : table),
      Stream sanitize t
        = some (G.map (fun g => "INSERT INTO ".toList ++ NameEsc t ++ " VALUES ".toList
            ++ List.intercalate ",".toList g ++ ";".toList), t1) ∧
      (∀ g ∈ G, g ≠ []) ∧
      G.flatten = rows.map (encodeRow sanitize t) ∧ t1.Err = t.Err := by
  obtain ⟨G, t1, h1, h2, h3, h4⟩ := Stream_groups sanitize t cur rows hopen hrows
  exact ⟨G, t1, h1, h3.1, h2, h4⟩

/-- C2, at the scenario. -/
theorem Stream_statements_cover_rows_witness :
    ∃ (G : List (List Bytes)) (t1 : table),
      Stream id (scenarioTable 40)
        = some (G.map (fun g => "INSERT INTO ".toList ++ NameEsc (scenarioTable 40)
            ++ " VALUES ".toList ++ List.intercalate ",".toList g ++ ";".toList), t1) ∧
      (∀ g ∈ G, g ≠ []) ∧
      G.flatten = scenarioRows.map (encodeRow id (scenarioTable 40)) ∧
      t1.Err = (scenarioTable 40).Err :=
  Stream_statements_cover_rows id (scenarioTable 40)
    (scenarioCursor (scenarioRows.map Fetch.ok)) scenarioRows
    ⟨rfl, rfl, rfl, ⟨_, _, rfl⟩, ⟨_, rfl⟩⟩ rfl

/-- C3, refuted as stated. On `failingTable` the row `(1,'a')` is read, then `Scan`
fails: when the loop of `Stream` ends, the error is recorded in `table.Err` and
no statement has been sent; `Stream` then emits the statement that holds the row
in the buffer. -/
theorem Stream_emits_after_recorded_error :
    failingTable.Err = none ∧
    (streamLoop id (pending failingTable + 1) failingTable ([], [])).map
        (fun r => (r.1.2, r.2.Err))
      = some ([], some "sql: Scan error".toList) ∧
    emitted id failingTable = some ["INSERT INTO `t` VALUES (1,'a');".toList] := by
  refine ⟨rfl, by decide, by decide⟩

/-- C3, amended. When a fetch fails (in `Scan` or in `rows.Err()`) after the rows
`rows` were read, `table.Err` holds its error and `Stream` emits the statements of
its loop on those rows, flushed: the statements sealed before the failing call of
`Next` and then, when there is a row, the buffer terminated by `;`. They are the
statements `Stream` emits on a table whose cursor is exhausted after the same
rows. -/
theorem Stream_after_error_flushes_rows (sanitize : Bytes → Bytes) (t : table) (cur : Rows)
    (rows : List (List Value)) (f : Fetch) (rest : List Fetch) (e : Error)
    (hopen : Opens t cur) (hf : cur.fetches = rows.map Fetch.ok ++ f :: rest)
    (hfail : f.failure = some e) :
    ∃ (sealed : List Bytes) (insert : Bytes) (t1 : table),
      feed t.data.MaxAllowedPacket (NameEsc t) ([], []) (rows.map (encodeRow sanitize t))
        = (insert, sealed) ∧
      Stream sanitize t = some (if rows = [] then [] else sealed ++ [insert ++ ";".toList], t1) ∧
      t1.Err = some e ∧
      ∀ (t2 : table) (cur2 : Rows), Opens t2 cur2 → cur2.fetches = rows.map Fetch.ok →
        NameEsc t2 = NameEsc t → t2.data.MaxAllowedPacket = t.data.MaxAllowedPacket →
        emitted sanitize t2 = emitted sanitize t := by
  have hstop : Stops (f :: rest) := by
    cases f with
    | ok vals => simp [Fetch.failure] at hfail
    | scanErr e1 => simp [Stops]
    | rowsErr vals e1 => simp [Stops]
  have herr : endErr t.Err (f :: rest) = some e := by
    cases f with
    | ok vals => simp [Fetch.failure] at hfail
    | scanErr e1 => simpa [endErr, Fetch.failure] using hfail
    | rowsErr vals e1 => simpa [endErr, Fetch.failure] using hfail
  obtain ⟨t1, h1, h2⟩ := Stream_rows sanitize t cur rows (f :: rest) hopen hf hstop
  rw [← map_encodeRow sanitize t] at h1
  have hflush : streamFlush (feed t.data.MaxAllowedPacket (NameEsc t) ([], [])
        (rows.map (encodeRow sanitize t)))
      = if rows = [] then []
        else (feed t.data.MaxAllowedPacket (NameEsc t) ([], [])
            (rows.map (encodeRow sanitize t))).2
          ++ [(feed t.data.MaxAllowedPacket (NameEsc t) ([], [])
            (rows.map (encodeRow sanitize t))).1 ++ ";".toList] := by
    by_cases hr : rows = []
    · subst hr; simp [feed, streamFlush]
    · have hne := feed_nonempty t.data.MaxAllowedPacket (NameEsc t)
        (rows.map (encodeRow sanitize t)) (by simpa using hr)
      simp [streamFlush, hne, hr]
  refine ⟨_, _, t1, rfl, ?_, by rw [h2, herr], ?_⟩
  · rw [h1, hflush]; rfl
  · intro t2 cur2 hopen2 hrows2 hname hM
    obtain ⟨t3, h3, -⟩ := Stream_rows sanitize t2 cur2 rows [] hopen2 (by simp [hrows2])
      (by simp [Stops])
    rw [← map_encodeRow sanitize t] at h3
    simp only [emitted, h1, h3, hname, hM, Option.map_some']

/-- C3 amended, at `failingTable`. -/
theorem Stream_after_error_flushes_rows_witness :
    ∃ (sealed : List Bytes) (insert : Bytes) (t1 : table),
      feed failingTable.data.MaxAllowedPacket (NameEsc failingTable) ([], [])
          ([[Value.NullInt64 1 true, Value.NullString "a".toList true]].map
            (encodeRow id failingTable))
        = (insert, sealed) ∧
      Stream id failingTable
        = some (if [[Value.NullInt64 1 true, Value.NullString "a".toList true]] = [] then []
                else sealed ++ [insert ++ ";".toList], t1) ∧
      t1.Err = some "sql: Scan error".toList ∧
      ∀ (t2 : table) (cur2 : Rows), Opens t2 cur2 →
        cur2.fetches
          = [[Value.NullInt64 1 true, Value.NullString "a".toList true]].map Fetch.ok →
        NameEsc t2 = NameEsc failingTable →
        t2.data.MaxAllowedPacket = failingTable.data.MaxAllowedPacket →
        emitted id t2 = emitted id failingTable :=
  Stream_after_error_flushes_rows id failingTable failingCursor
    [[Value.NullInt64 1 true, Value.NullString "a".toList true]]
    (Fetch.scanErr "sql: Scan error".toList)
    [Fetch.ok [Value.NullInt64 3 true, Value.NullString "ccc".toList true]]
    "sql: Scan error".toList ⟨rfl, rfl, rfl, ⟨_, _, rfl⟩, ⟨_, rfl⟩⟩ rfl rfl

/-- C4. When the cursor of the table opens and yields no row, `Stream` emits no
statement, whatever `MaxAllowedPacket` is, and records no error. -/
theorem Stream_no_rows_no_statement (sanitize : Bytes → Bytes) (t : table) (cur : Rows)
    (hopen : Opens t cur) (hrows : cur.fetches = []) :
    ∃ t1 : table, Stream sanitize t = some ([], t1) ∧ t1.Err = t.Err := by
  obtain ⟨t1, h1, h2⟩ := Stream_rows sanitize t cur [] [] hopen (by simp [hrows]) (by simp [Stops])
  refine ⟨t1, ?_, by rw [h2]; rfl⟩
  rw [h1]; rfl

/-- C4, at a table without rows and with `MaxAllowedPacket = 0`. -/
theorem Stream_no_rows_no_statement_witness :
    ∃ t1 : table, Stream id (tableOver (scenarioCursor []) 0) = some ([], t1) ∧
      t1.Err = (tableOver (scenarioCursor []) 0).Err :=
  Stream_no_rows_no_statement id (tableOver (scenarioCursor []) 0) (scenarioCursor [])
    ⟨rfl, rfl, rfl, ⟨_, _, rfl⟩, ⟨_, rfl⟩⟩ rfl

/-- C5. When the rows, at least one, are read without error and the single
statement of all their tuples (preamble, tuples joined by `,`, and `;`) has at
most `MaxAllowedPacket-1` bytes, `Stream` emits exactly that statement. -/
theorem Stream_single_statement (sanitize : Bytes → Bytes) (t : table) (cur : Rows)
    (rows : List (List Value)) (hopen : Opens t cur)
    (hrows : cur.fetches = rows.map Fetch.ok) (hne : rows ≠ [])
    (hfit : ((("INSERT INTO ".toList ++ NameEsc t ++ " VALUES ".toList
        ++ List.intercalate ",".toList (rows.map (encodeRow sanitize t))
        ++ ";".toList).length : Nat) : Int) ≤ budget t.data.MaxAllowedPacket) :
    ∃ t1 : table,
      Stream sanitize t
        = some (["INSERT INTO ".toList ++ NameEsc t ++ " VALUES ".toList
            ++ List.intercalate ",".toList (rows.map (encodeRow sanitize t))
            ++ ";".toList], t1) := by
  obtain ⟨t1, h1, -⟩ := Stream_rows sanitize t cur rows [] hopen (by simp [hrows]) (by simp [Stops])
  rw [← map_encodeRow sanitize t] at h1
  have hts : rows.map (encodeRow sanitize t) ≠ [] := by simpa using hne
  have hfeed := feed_fits t.data.MaxAllowedPacket (NameEsc t)
    (rows.map (encodeRow sanitize t)) hts hfit
  refine ⟨t1, ?_⟩
  rw [h1, hfeed]
  simp [streamFlush, openStatement_length_pos, openStatement, preamble]

/-- C5, at the scenario with `MaxAllowedPacket = 60`: one statement of 50 bytes. -/
theorem Stream_single_statement_witness :
    ∃ t1 : table,
      Stream id (scenarioTable 60)
        = some (["INSERT INTO ".toList ++ NameEsc (scenarioTable 60) ++ " VALUES ".toList
            ++ List.intercalate ",".toList (scenarioRows.map (encodeRow id (scenarioTable 60)))
            ++ ";".toList], t1) :=
  Stream_single_statement id (scenarioTable 60) (scenarioCursor (scenarioRows.map Fetch.ok))
    scenarioRows ⟨rfl, rfl, rfl, ⟨_, _, rfl⟩, ⟨_, rfl⟩⟩ rfl (by decide) (by decide)

/-- C6. When the rows are read without error, the statements emitted by `Stream`
are those of groups of tuples that concatenate to the encodings of all the rows,
and a group that holds a tuple of more than `MaxAllowedPacket-1` bytes holds
that tuple only. -/
theorem Stream_oversized_row_alone (sanitize : Bytes → Bytes) (t : table) (cur : Rows)
    (rows : List (List Value)) (hopen : Opens t cur)
    (hrows : cur.fetches = rows.map Fetch.ok) :
    ∃ (G : List (List Bytes)) (t1 : table),
      Stream sanitize t = some (G.map (statementOf (NameEsc t)), t1) ∧
      G.flatten = rows.map (encodeRow sanitize t) ∧
      ∀ g ∈ G, ∀ u ∈ g, budget t.data.MaxAllowedPacket < (u.length : Int) → g = [u] := by
  obtain ⟨G, t1, h1, h2, h3, -⟩ := Stream_groups sanitize t cur rows hopen hrows
  exact ⟨G, t1, h1, h2, fun g hg u hu hover =>
    greedy_oversized_alone _ _ G h3 g hg u hu hover⟩

/-- C6, at `oversizedTable`, whose third row has a tuple of 42 bytes. -/
theorem Stream_oversized_row_alone_witness :
    ∃ (G : List (List Bytes)) (t1 : table),
      Stream id oversizedTable = some (G.map (statementOf (NameEsc oversizedTable)), t1) ∧
      G.flatten = oversizedRows.map (encodeRow id oversizedTable) ∧
      ∀ g ∈ G, ∀ u ∈ g,
        budget oversizedTable.data.MaxAllowedPacket < (u.length : Int) → g = [u] :=
  Stream_oversized_row_alone id oversizedTable (scenarioCursor (oversizedRows.map Fetch.ok))
    oversizedRows ⟨rfl, rfl, rfl, ⟨_, _, rfl⟩, ⟨_, rfl⟩⟩ rfl

theorem streamStep_sends (M : Int) (ne insert : Bytes) (out : List Bytes) (b : Bytes) :
    ((streamStep M ne (insert, out) b).2 = out ++ [insert ++ ";".toList] ↔
        insert ≠ [] ∧ budget M < ((insert.length + b.length : Nat) : Int)) ∧
      (insert ≠ [] ∧ budget M < ((insert.length + b.length : Nat) : Int) →
        streamStep M ne (insert, out) b
          = ("INSERT INTO ".toList ++ ne ++ " VALUES ".toList ++ b,
              out ++ [insert ++ ";".toList])) ∧
      (¬ (insert ≠ [] ∧ budget M < ((insert.length + b.length : Nat) : Int)) →
        streamStep M ne (insert, out) b
          = ((if insert = [] then "INSERT INTO ".toList ++ ne ++ " VALUES ".toList
              else insert ++ ",".toList) ++ b, out)) := by
  have hseal : insert ≠ [] ∧ budget M < ((insert.length + b.length : Nat) : Int) →
      streamStep M ne (insert, out) b
        = ("INSERT INTO ".toList ++ ne ++ " VALUES ".toList ++ b,
            out ++ [insert ++ ";".toList]) := by
    intro h
    have h0 : insert.length ≠ 0 := fun h0 => h.1 (List.length_eq_zero.mp h0)
    rw [streamStep_seal M ne insert out b h0 h.2]
    rfl
  have hkeep : ¬ (insert ≠ [] ∧ budget M < ((insert.length + b.length : Nat) : Int)) →
      streamStep M ne (insert, out) b
        = ((if insert = [] then "INSERT INTO ".toList ++ ne ++ " VALUES ".toList
            else insert ++ ",".toList) ++ b, out) := by
    intro h
    by_cases hnil : insert = []
    · subst hnil
      rw [streamStep_empty, if_pos rfl]
      rfl
    · have h0 : insert.length ≠ 0 := fun h0 => hnil (List.length_eq_zero.mp h0)
      have hle : ((insert.length + b.length : Nat) : Int) ≤ budget M :=
        not_lt.mp (fun hlt => h ⟨hnil, hlt⟩)
      rw [streamStep_join M ne insert out b h0 hle, if_neg hnil]
  refine ⟨⟨?_, fun h => by rw [hseal h]⟩, hseal, hkeep⟩
  intro h
  by_contra hc
  rw [hkeep hc] at h
  have := congrArg List.length h
  simp at this

/-- C7. With `MaxAllowedPacket` an `int` other than the least, the body of the
loop of `Stream` seals and sends the buffer before adding the tuple `b` exactly
when the buffer is not empty and `len(buffer) + len(b) > MaxAllowedPacket - 1`;
it then restarts the buffer with the preamble, and otherwise it sends nothing
and starts the buffer with the preamble or appends `,` to it. On rows read
without error the statements are those of groups of the tuples such that, for
two consecutive statements `S` and `S2`, `(len(S) - 1) + len(first tuple of S2)`
is over `MaxAllowedPacket - 1`, and every tuple after the first of a statement
was within `MaxAllowedPacket - 1` together with the buffer before it. For every
`MaxAllowedPacket` the threshold is the value of `MaxAllowedPacket - 1` in `int`
arithmetic. In the scenario with `MaxAllowedPacket = 38` the buffer of 30 bytes
is sealed before the tuple of 8 bytes. -/
theorem Stream_seals_at_literal_threshold (sanitize : Bytes → Bytes) (t : table) (cur : Rows)
    (rows : List (List Value)) (hopen : Opens t cur)
    (hrows : cur.fetches = rows.map Fetch.ok) :
    (-9223372036854775808 < t.data.MaxAllowedPacket →
      t.data.MaxAllowedPacket ≤ 9223372036854775807 →
      (∀ (insert : Bytes) (out : List Bytes) (b : Bytes),
        ((streamStep t.data.MaxAllowedPacket (NameEsc t) (insert, out) b).2
            = out ++ [insert ++ ";".toList] ↔
          insert ≠ [] ∧
            t.data.MaxAllowedPacket - 1 < ((insert.length + b.length : Nat) : Int)) ∧
        (insert ≠ [] ∧
            t.data.MaxAllowedPacket - 1 < ((insert.length + b.length : Nat) : Int) →
          streamStep t.data.MaxAllowedPacket (NameEsc t) (insert, out) b
            = ("INSERT INTO ".toList ++ NameEsc t ++ " VALUES ".toList ++ b,
                out ++ [insert ++ ";".toList])) ∧
        (¬ (insert ≠ [] ∧
            t.data.MaxAllowedPacket - 1 < ((insert.length + b.length : Nat) : Int)) →
          streamStep t.data.MaxAllowedPacket (NameEsc t) (insert, out) b
            = ((if insert = [] then "INSERT INTO ".toList ++ NameEsc t ++ " VALUES ".toList
                else insert ++ ",".toList) ++ b, out))) ∧
      ∃ (G : List (List Bytes)) (t1 : table),
        Stream sanitize t = some (G.map (statementOf (NameEsc t)), t1) ∧
        G.flatten = rows.map (encodeRow sanitize t) ∧
        List.Chain' (fun g g2 => ∃ u r, g2 = u :: r ∧
          t.data.MaxAllowedPacket - 1
            < ((((statementOf (NameEsc t) g).length - 1) + u.length : Nat) : Int)) G ∧
        ∀ g ∈ G, ∀ a u b, g = a ++ u :: b → a ≠ [] →
          ((((openStatement (NameEsc t) a).length + u.length : Nat)) : Int)
            ≤ t.data.MaxAllowedPacket - 1) ∧
    (∀ (insert : Bytes) (out : List Bytes) (b : Bytes),
      (streamStep t.data.MaxAllowedPacket (NameEsc t) (insert, out) b).2
          = out ++ [insert ++ ";".toList] ↔
        insert ≠ [] ∧
          wrapInt (t.data.MaxAllowedPacket - 1) < ((insert.length + b.length : Nat) : Int)) ∧
    emitted id (scenarioTable 38)
      = some ["INSERT INTO `t` VALUES (1,'a');".toList,
              "INSERT INTO `t` VALUES (2,'bb');".toList,
              "INSERT INTO `t` VALUES (3,'ccc');".toList] := by
  refine ⟨?_, fun insert out b =>
    (streamStep_sends t.data.MaxAllowedPacket (NameEsc t) insert out b).1, by decide⟩
  intro hlo hhi
  have hB := budget_eq_sub_one t.data.MaxAllowedPacket hlo hhi
  constructor
  · intro insert out b
    have h := streamStep_sends t.data.MaxAllowedPacket (NameEsc t) insert out b
    rw [hB] at h
    exact h
  · obtain ⟨G, t1, h1, h2, h3, -⟩ := Stream_groups sanitize t cur rows hopen hrows
    rw [hB] at h3
    refine ⟨G, t1, h1, h2, ?_, h3.2.1⟩
    refine List.Chain'.imp ?_ h3.2.2
    intro g g2 hs
    obtain ⟨u, r, hr, hlt⟩ := hs
    refine ⟨u, r, hr, ?_⟩
    rw [statementOf_length]
    simpa using hlt

/-- C7, at the scenario: with `MaxAllowedPacket = 40` the threshold is 39, and the
buffer of 39 bytes is sealed before `(3,'ccc')`. -/
theorem Stream_seals_at_literal_threshold_witness :
    ∃ (G : List (List Bytes)) (t1 : table),
      Stream id (scenarioTable 40) = some (G.map (statementOf (NameEsc (scenarioTable 40))), t1) ∧
      G.flatten = scenarioRows.map (encodeRow id (scenarioTable 40)) ∧
      List.Chain' (fun g g2 => ∃ u r, g2 = u :: r ∧
        (scenarioTable 40).data.MaxAllowedPacket - 1
          < ((((statementOf (NameEsc (scenarioTable 40)) g).length - 1) + u.length : Nat) : Int))
        G ∧
      ∀ g ∈ G, ∀ a u b, g = a ++ u :: b → a ≠ [] →
        ((((openStatement (NameEsc (scenarioTable 40)) a).length + u.length : Nat)) : Int)
          ≤ (scenarioTable 40).data.MaxAllowedPacket - 1 :=
  ((Stream_seals_at_literal_threshold id (scenarioTable 40)
    (scenarioCursor (scenarioRows.map Fetch.ok)) scenarioRows
    ⟨rfl, rfl, rfl, ⟨_, _, rfl⟩, ⟨_, rfl⟩⟩ rfl).1 (by decide) (by decide)).2

/-! ## The table when `Stream` ends -/

theorem Init_of_opens_eq (t : table) (cur : Rows) (tt : List ColumnType) (h : Opens t cur)
    (htt : cur.ColumnTypes = Except.ok tt) :
    Init t = (none, { t with
      rows := some cur,
      data := { t.data with
        Connection := (t.data.Connection.Query ("SELECT * FROM ".toList ++ NameEsc t)).2 },
      types := tt.map columnType,
      values := (tt.map columnType).map zeroValue }) := by
  obtain ⟨_, htypes, hq, ⟨c, cs, hcols⟩, -⟩ := h
  have hq2 : t.data.Connection.Query ("SELECT * FROM ".toList ++ NameEsc t)
      = (Except.ok cur, (t.data.Connection.Query ("SELECT * FROM ".toList ++ NameEsc t)).2) := by
    rw [← hq]
  unfold Init
  rw [hq2]
  simp [htypes, hcols, htt]

theorem Next_stops_state (t : table) (cur : Rows) (hrows : t.rows = some cur)
    (hstop : Stops cur.fetches) :
    (Next t).2.types = t.types ∧ (Next t).2.rows = endRows cur cur.fetches ∧
      (Next t).2.data.Connection = endConn t.data.Connection cur.fetches := by
  cases hf : cur.fetches with
  | nil => simp [Next, nextRow, hrows, hf, endRows, endConn]
  | cons f rest =>
    cases f with
    | ok vals => rw [hf] at hstop; exact absurd hstop (by simp [Stops])
    | scanErr e => simp [Next, nextRow, hrows, hf, endRows, endConn]
    | rowsErr vals e => simp [Next, nextRow, hrows, hf, endRows, endConn]

theorem endRows_fetches (cur : Rows) (fs tail : List Fetch) :
    endRows { cur with fetches := fs } tail = endRows cur tail := by
  cases tail <;> rfl

theorem streamLoop_rows_state (sanitize : Bytes → Bytes) (rows : List (List Value)) :
    ∀ (t : table) (cur : Rows) (tail : List Fetch) (st : Bytes × List Bytes) (fuel : Nat),
      t.rows = some cur → cur.fetches = rows.map Fetch.ok ++ tail → Stops tail →
      rows.length < fuel →
      ∃ r, streamLoop sanitize fuel t st = some r ∧ r.2.types = t.types ∧
        r.2.rows = endRows cur tail ∧
        r.2.data.Connection = endConn t.data.Connection tail := by
  induction rows with
  | nil =>
    intro t cur tail st fuel hrows hf hstop hfuel
    obtain ⟨k, rfl⟩ : ∃ k, fuel = k + 1 := ⟨fuel - 1, by omega⟩
    simp only [List.map_nil, List.nil_append] at hf
    rw [← hf] at hstop
    obtain ⟨n1, -⟩ := Next_stops t cur hrows hstop
    obtain ⟨s1, s2, s3⟩ := Next_stops_state t cur hrows hstop
    refine ⟨(st, (Next t).2), streamLoop_stop sanitize t k st n1, s1, ?_, ?_⟩
    · rw [s2, hf]
    · rw [s3, hf]
  | cons r rs ih =>
    intro t cur tail st fuel hrows hf hstop hfuel
    obtain ⟨k, rfl⟩ : ∃ k, fuel = k + 1 := ⟨fuel - 1, by simp at hfuel; omega⟩
    simp only [List.map_cons, List.cons_append] at hf
    have hk : rs.length < k := by simp at hfuel; omega
    obtain ⟨T, hT⟩ : ∃ T : table,
        T = { t with rows := some { cur with fetches := rs.map Fetch.ok ++ tail }, values := r } :=
      ⟨_, rfl⟩
    have hnext : Next t = (true, T) := by rw [hT]; exact Next_fetch_ok t cur r _ hrows hf
    obtain ⟨res, h1, h2, h3, h4⟩ :=
      ih T { cur with fetches := rs.map Fetch.ok ++ tail } tail
        (streamStep T.data.MaxAllowedPacket (NameEsc T) st (RowBuffer sanitize T)) k
        (by rw [hT]) rfl hstop hk
    refine ⟨res, ?_, ?_, ?_, ?_⟩
    · rw [streamLoop_next sanitize t T k st hnext, h1]
    · rw [h2, hT]
    · rw [h3, endRows_fetches]
    · rw [h4, hT]

/-- The table when `Stream` ends, on a table whose cursor opens and holds the rows
`rows` followed by fetches that stop the loop. -/
theorem Stream_rows_state (sanitize : Bytes → Bytes) (t : table) (cur : Rows)
    (tt : List ColumnType) (rows : List (List Value)) (tail : List Fetch)
    (hopen : Opens t cur) (htt : cur.ColumnTypes = Except.ok tt)
    (hf : cur.fetches = rows.map Fetch.ok ++ tail) (hstop : Stops tail) :
    ∃ r, Stream sanitize t = some r ∧ r.2.types = tt.map columnType ∧
      r.2.rows = endRows cur tail ∧
      r.2.data.Connection
        = endConn (t.data.Connection.Query ("SELECT * FROM ".toList ++ NameEsc t)).2 tail := by
  have hinit := Init_of_opens_eq t cur tt hopen htt
  have hfuel : rows.length < pending t + 1 := by
    rw [pending_of_opens t cur hopen, hf]; simp; omega
  obtain ⟨res, h1, h2, h3, h4⟩ := streamLoop_rows_state sanitize rows (Init t).2 cur tail
    ([], []) (pending t + 1) (by rw [hinit]) hf hstop hfuel
  refine ⟨(streamFlush res.1, res.2), ?_, ?_, h3, ?_⟩
  · simp only [Stream, streamLoop_of_opens sanitize t cur hopen, h1]
  · rw [h2, hinit]
  · rw [h4, hinit]

/-- C11. A `RawBytes` value of length zero is rendered by `RowBuffer` as the
unquoted `NULL` at its position: not as `_binary ''`, and not as the binary
literal around the sanitized empty payload. -/
theorem RowBuffer_empty_binary_is_NULL (sanitize : Bytes → Bytes) (t : table)
    (before after : List Value)
    (hrow : t.values = before ++ Value.RawBytes [] :: after) :
    writeValue sanitize (Value.RawBytes []) = "NULL".toList ∧
      writeValue sanitize (Value.RawBytes []) ≠ "_binary ''".toList ∧
      writeValue sanitize (Value.RawBytes [])
        ≠ "_binary '".toList ++ sanitize [] ++ "'".toList ∧
      RowBuffer sanitize t
        = "(".toList ++ List.intercalate ",".toList
            (before.map (writeValue sanitize) ++ "NULL".toList
              :: after.map (writeValue sanitize)) ++ ")".toList := by
  have h : writeValue sanitize (Value.RawBytes []) = "NULL".toList := rfl
  refine ⟨h, ?_, ?_, ?_⟩
  · rw [h]; decide
  · rw [h]
    intro hc
    have := congrArg List.head? hc
    simp at this
  · rw [RowBuffer_eq_tupleOf, tupleOf, hrow, List.map_append, List.map_cons, h]

/-- C11, at a row whose fourth value is an empty `RawBytes`. -/
theorem RowBuffer_empty_binary_is_NULL_witness :
    RowBuffer id { scenarioTable 40 with values := nullRow } = "(7,NULL,NULL,NULL,'x')".toList :=
  (RowBuffer_empty_binary_is_NULL id { scenarioTable 40 with values := nullRow }
    [Value.NullInt64 7 true, Value.NullInt64 0 false, Value.NullString [] false]
    [Value.NullString "x".toList true] rfl).2.2.2

/-- C12. A non-empty `RawBytes` value `p` is rendered as `_binary ` followed by the
rendering of the same bytes as a valid `NullString`, which is the sanitized bytes
between single quotes. -/
theorem writeValue_binary_is_prefixed_text (sanitize : Bytes → Bytes) (p : Bytes)
    (hp : p ≠ []) :
    writeValue sanitize (Value.RawBytes p)
        = "_binary ".toList ++ writeValue sanitize (Value.NullString p true) ∧
      writeValue sanitize (Value.NullString p true)
        = "'".toList ++ sanitize p ++ "'".toList ∧
      writeValue sanitize (Value.RawBytes p)
        = "_binary '".toList ++ sanitize p ++ "'".toList := by
  have hlen : p.length ≠ 0 := fun h => hp (List.length_eq_zero.mp h)
  refine ⟨?_, ?_, ?_⟩
  · simp [writeValue, hlen]
  · simp [writeValue]
  · simp [writeValue, hlen]

/-- C12, at the bytes `ab`. -/
theorem writeValue_binary_is_prefixed_text_witness :
    writeValue id (Value.RawBytes "ab".toList) = "_binary 'ab'".toList :=
  (writeValue_binary_is_prefixed_text id "ab".toList (by decide)).2.2

/-- C13, refuted as stated. `LONGBLOB`, `MEDIUMBLOB` and `TINYBLOB` denote binary
large objects, and `Init` stores `NullString` for the first two and, the scan
type being a signed integer, `NullInt64` for the third: none gets `RawBytes`. -/
theorem Init_blob_family_is_not_binary :
    (∀ tp ∈ blobColumnTypes, denotesBlob tp.DatabaseTypeName = true) ∧
      (Init (tableOver blobCursor 40)).1 = none ∧
      (Init (tableOver blobCursor 40)).2.types
        = [GoType.NullString, GoType.NullString, GoType.NullInt64] ∧
      ¬ (∀ tp ∈ blobColumnTypes, denotesBlob tp.DatabaseTypeName = true →
          columnType tp = GoType.RawBytes) := by
  refine ⟨by decide, by decide, by decide, by decide⟩

/-- C13, amended. When `Init` opens the cursor, the type it stores for each column
is decided by the rules in order: `RawBytes` when the database type name is
exactly `BLOB`, whatever the scan type, and for no other name; else `NullInt64`
when the scan type has kind `Int`, `Int8`, `Int16`, `Int32` or `Int64`; else
`NullString`, also without scan type and for unsigned kinds. There is one type
per column, in column order. -/
theorem Init_classifies_columns (t : table) (cur : Rows) (tt : List ColumnType)
    (hopen : Opens t cur) (htt : cur.ColumnTypes = Except.ok tt) :
    (Init t).1 = none ∧ (Init t).2.types = tt.map columnType ∧
      (Init t).2.types.length = tt.length ∧
      ∀ tp ∈ tt,
        (columnType tp = GoType.RawBytes ↔ tp.DatabaseTypeName = "BLOB".toList) ∧
        (tp.DatabaseTypeName = "BLOB".toList → columnType tp = GoType.RawBytes) ∧
        (tp.DatabaseTypeName ≠ "BLOB".toList →
          tp.ScanType ∈ [some Kind.Int, some Kind.Int8, some Kind.Int16, some Kind.Int32,
            some Kind.Int64] →
          columnType tp = GoType.NullInt64) ∧
        (tp.DatabaseTypeName ≠ "BLOB".toList →
          tp.ScanType ∉ [some Kind.Int, some Kind.Int8, some Kind.Int16, some Kind.Int32,
            some Kind.Int64] →
          columnType tp = GoType.NullString) := by
  have hinit := Init_of_opens_eq t cur tt hopen htt
  refine ⟨by rw [hinit], by rw [hinit], by rw [hinit]; simp, ?_⟩
  intro tp _
  have h1 : tp.DatabaseTypeName = "BLOB".toList → columnType tp = GoType.RawBytes := by
    intro h; simp [columnType, h]
  refine ⟨⟨?_, h1⟩, h1, ?_, ?_⟩
  · intro hraw
    by_contra h
    by_cases hk : tp.ScanType = some Kind.Int ∨ tp.ScanType = some Kind.Int8 ∨
        tp.ScanType = some Kind.Int16 ∨ tp.ScanType = some Kind.Int32 ∨
        tp.ScanType = some Kind.Int64
    · simp only [columnType, if_neg h, if_pos hk] at hraw
      exact absurd hraw (by decide)
    · simp only [columnType, if_neg h, if_neg hk] at hraw
      exact absurd hraw (by decide)
  · intro h hk
    simp only [List.mem_cons, List.mem_singleton, List.not_mem_nil, or_false] at hk
    simp only [columnType, if_neg h, if_pos hk]
  · intro h hk
    simp only [List.mem_cons, List.mem_singleton, List.not_mem_nil, or_false] at hk
    simp only [columnType, if_neg h, if_neg hk]

/-- C13 amended, at a cursor with columns of every kind, the last three under
other names of blobs. -/
theorem Init_classifies_columns_witness :
    (Init (tableOver mixedCursor 40)).2.types
      = [GoType.RawBytes, GoType.RawBytes, GoType.NullInt64, GoType.NullInt64,
         GoType.NullInt64, GoType.NullInt64, GoType.NullInt64, GoType.NullString,
         GoType.NullString, GoType.NullString, GoType.NullString, GoType.NullInt64,
         GoType.NullString] :=
  (Init_classifies_columns (tableOver mixedCursor 40) mixedCursor mixedColumnTypes
    ⟨rfl, rfl, rfl, ⟨_, _, rfl⟩, ⟨_, rfl⟩⟩ rfl).2.1

/-- C14. When the cursor of the table opens and reports no column, `Init` returns
the error `No columns in table <name>.`, the first call of `Next` returns false
with that error in `table.Err` and the fetches of the cursor untouched, and
`Stream` emits no statement. -/
theorem Stream_no_columns_is_error (sanitize : Bytes → Bytes) (t : table) (cur : Rows)
    (hrows : t.rows = none) (htypes : t.types = [])
    (hq : (t.data.Connection.Query ("SELECT * FROM ".toList ++ NameEsc t)).1 = Except.ok cur)
    (hcols : cur.Columns = Except.ok []) :
    (Init t).1 = some ("No columns in table ".toList ++ t.Name ++ ".".toList) ∧
      (Next t).1 = false ∧
      (Next t).2.Err = some ("No columns in table ".toList ++ t.Name ++ ".".toList) ∧
      (Next t).2.rows = some cur ∧ (Next t).2.values = t.values ∧
      Stream sanitize t = some ([], (Next t).2) := by
  have hq2 : t.data.Connection.Query ("SELECT * FROM ".toList ++ NameEsc t)
      = (Except.ok cur, (t.data.Connection.Query ("SELECT * FROM ".toList ++ NameEsc t)).2) := by
    rw [← hq]
  have hinit : Init t = (some ("No columns in table ".toList ++ t.Name ++ ".".toList),
      { t with
        rows := some cur
        data := { t.data with
          Connection :=
            (t.data.Connection.Query ("SELECT * FROM ".toList ++ NameEsc t)).2 } }) := by
    unfold Init
    rw [hq2]
    simp [htypes, hcols]
  have hnext : Next t = (false,
      { t with
        rows := some cur
        data := { t.data with
          Connection :=
            (t.data.Connection.Query ("SELECT * FROM ".toList ++ NameEsc t)).2 }
        Err := some ("No columns in table ".toList ++ t.Name ++ ".".toList) }) := by
    simp only [Next, hrows, hinit]
  refine ⟨by rw [hinit], by rw [hnext], by rw [hnext], by rw [hnext], by rw [hnext], ?_⟩
  have h1 : (Next t).1 = false := by rw [hnext]
  simp only [Stream, streamLoop_stop sanitize t (pending t) ([], []) h1]
  rfl

/-- C14, at a table whose cursor reports no column. -/
theorem Stream_no_columns_is_error_witness :
    (Init (tableOver noColumnsCursor 40)).1 = some "No columns in table t.".toList ∧
      (Next (tableOver noColumnsCursor 40)).1 = false ∧
      (Next (tableOver noColumnsCursor 40)).2.Err = some "No columns in table t.".toList ∧
      (Next (tableOver noColumnsCursor 40)).2.rows = some noColumnsCursor ∧
      (Next (tableOver noColumnsCursor 40)).2.values = (tableOver noColumnsCursor 40).values ∧
      Stream id (tableOver noColumnsCursor 40)
        = some ([], (Next (tableOver noColumnsCursor 40)).2) :=
  Stream_no_columns_is_error id (tableOver noColumnsCursor 40) noColumnsCursor rfl rfl rfl rfl

theorem Init_twice_is_error_aux (t : table) (htypes : t.types ≠ []) :
    Init t = (some "can't init twice".toList, t) := by
  have h : t.types.length ≠ 0 := fun h => htypes (List.length_eq_zero.mp h)
  simp [Init, h]

/-- C15. On a table whose column types are populated, `Init` returns the error
`can't init twice` and the table is unchanged: types, values, cursor, `Err`, and
the connection, to which no query is sent. -/
theorem Init_twice_is_error (t : table) (htypes : t.types ≠ []) :
    Init t = (some "can't init twice".toList, t) :=
  Init_twice_is_error_aux t htypes

/-- C15, at the scenario table after its first `Init`. -/
theorem Init_twice_is_error_witness :
    (Init (scenarioTable 40)).1 = none ∧
      Init (Init (scenarioTable 40)).2
        = (some "can't init twice".toList, (Init (scenarioTable 40)).2) :=
  ⟨rfl, Init_twice_is_error (Init (scenarioTable 40)).2 (by decide)⟩

theorem queryRowScan2_two (db : DB) (q : Bytes) (cur : Rows) (r s : Bytes) (rv sv : Bool)
    (rest : List Fetch) (hq : db.respond db.queries q = Except.ok cur)
    (hrow : cur.fetches = Fetch.ok [Value.NullString r rv, Value.NullString s sv] :: rest) :
    db.queryRowScan2 q = (Except.ok ((r, rv), (s, sv)), { db with queries := db.queries ++ [q] }) := by
  simp [DB.queryRowScan2, DB.Query, hq, hrow, asNullString]

theorem CreateSQL_of_scan (t : table) (r s : Bytes) (rv sv : Bool) (db : DB)
    (h : t.data.Connection.queryRowScan2 ("SHOW CREATE TABLE ".toList ++ NameEsc t)
      = (Except.ok ((r, rv), (s, sv)), db)) :
    CreateSQL t
      = if r ≠ t.Name then
          (Except.error "Returned table is not the same as requested table".toList,
            { t with data := { t.data with Connection := db } })
        else (Except.ok s, { t with data := { t.data with Connection := db } }) := by
  unfold CreateSQL
  rw [h]

/-- The run of `Stream` on rows followed by fetches that stop the loop: greedy
groups of the tuples of the rows. -/
theorem Stream_groups_tail (sanitize : Bytes → Bytes) (t : table) (cur : Rows)
    (rows : List (List Value)) (tail : List Fetch) (hopen : Opens t cur)
    (hf : cur.fetches = rows.map Fetch.ok ++ tail) (hstop : Stops tail) :
    ∃ (G : List (List Bytes)) (t1 : table),
      Stream sanitize t = some (G.map (statementOf (NameEsc t)), t1) ∧
      G.flatten = rows.map (encodeRow sanitize t) ∧
      Greedy (budget t.data.MaxAllowedPacket) (NameEsc t) G := by
  obtain ⟨t1, h1, -⟩ := Stream_rows sanitize t cur rows tail hopen hf hstop
  obtain ⟨G, g1, g2, g3⟩ :=
    feed_groups t.data.MaxAllowedPacket (NameEsc t) (rows.map (tupleOf sanitize))
  refine ⟨G, t1, ?_, ?_, g3⟩
  · rw [h1, g1]
  · rw [g2, map_encodeRow]

/-- C16. When the creation-statement query for the table `n` answers with the
name `r` and the statement `s`, `CreateSQL` returns `s` when `r` is `n` and the
error `Returned table is not the same as requested table` when it is not; in
that case `dumpTable` returns the error of the template, having written the
text of the section that precedes the creation statement only and having sent
no other query: `Stream` is not called and no statement is produced. -/
theorem CreateSQL_name_mismatch_is_error (sanitize : Bytes → Bytes) (wrap : Error → Error)
    (data : Data) (n r s : Bytes) (rv sv : Bool) (cur : Rows) (rest : List Fetch)
    (herr : data.err = none)
    (hq : data.Connection.respond data.Connection.queries
      ("SHOW CREATE TABLE ".toList ++ ("`".toList ++ n ++ "`".toList)) = Except.ok cur)
    (hrow : cur.fetches = Fetch.ok [Value.NullString r rv, Value.NullString s sv] :: rest) :
    (r = n → (CreateSQL (createTable data n)).1 = Except.ok s) ∧
    (r ≠ n →
      (CreateSQL (createTable data n)).1
        = Except.error "Returned table is not the same as requested table".toList ∧
      ∃ data1 : Data,
        dumpTable sanitize wrap data n
          = some (tableTmplHead { createTable data n with CharsetName := data.CharsetName },
              some (wrap "Returned table is not the same as requested table".toList), data1) ∧
        data1.Connection.queries
          = data.Connection.queries
              ++ ["SHOW CREATE TABLE ".toList ++ ("`".toList ++ n ++ "`".toList)] ∧
        data1.Connection.closed = data.Connection.closed) := by
  have hscan := queryRowScan2_two data.Connection _ cur r s rv sv rest hq hrow
  have hc : ∀ cs : Bytes,
      CreateSQL { createTable data n with CharsetName := cs }
        = if r ≠ n then
            (Except.error "Returned table is not the same as requested table".toList,
              { createTable data n with
                CharsetName := cs
                data := { data with
                  Connection := { data.Connection with
                    queries := data.Connection.queries
                      ++ ["SHOW CREATE TABLE ".toList ++ ("`".toList ++ n ++ "`".toList)] } } })
          else
            (Except.ok s,
              { createTable data n with
                CharsetName := cs
                data := { data with
                  Connection := { data.Connection with
                    queries := data.Connection.queries
                      ++ ["SHOW CREATE TABLE ".toList ++ ("`".toList ++ n ++ "`".toList)] } } }) :=
    fun cs => CreateSQL_of_scan { createTable data n with CharsetName := cs } r s rv sv _ hscan
  constructor
  · intro h
    rw [show createTable data n = { createTable data n with CharsetName := [] } from rfl, hc,
      if_neg (not_not.mpr h)]
  · intro h
    refine ⟨?_, { data with
        Connection := { data.Connection with
          queries := data.Connection.queries
            ++ ["SHOW CREATE TABLE ".toList ++ ("`".toList ++ n ++ "`".toList)] } },
      ?_, rfl, rfl⟩
    · rw [show createTable data n = { createTable data n with CharsetName := [] } from rfl, hc,
        if_pos h]
    · simp only [dumpTable, herr, writeTable, executeTableTmpl]
      rw [show (createTable data n).data.CharsetName = data.CharsetName from rfl, hc, if_pos h]
      simp only [herr]

/-- C16, at the request for `orders` answered with `orders_old`. -/
theorem CreateSQL_name_mismatch_is_error_witness :
    (CreateSQL (createTable ordersData "orders".toList)).1
        = Except.error "Returned table is not the same as requested table".toList ∧
      ∃ data1 : Data,
        dumpTable id id ordersData "orders".toList
          = some (tableTmplHead
                { createTable ordersData "orders".toList with
                  CharsetName := ordersData.CharsetName },
              some (id "Returned table is not the same as requested table".toList), data1) ∧
        data1.Connection.queries
          = ordersData.Connection.queries
              ++ ["SHOW CREATE TABLE ".toList ++ ("`".toList ++ "orders".toList ++ "`".toList)] ∧
        data1.Connection.closed = ordersData.Connection.closed :=
  (CreateSQL_name_mismatch_is_error id id ordersData "orders".toList "orders_old".toList
    "CREATE TABLE `orders_old` (`id` int)".toList true true _ [] rfl rfl rfl).2 (by decide)

/-- C18, evaluated. On `failingTable` (the row `(1,'a')`, then a `Scan` error)
`Stream` ends with the error recorded, the cursor still set in `table.rows` and
no call of `rows.Close()`; on the scenario table, whose rows are exhausted, it
ends with `table.rows` nil and one call of `rows.Close()`. -/
theorem Stream_scan_error_leaves_cursor_open :
    (Stream id failingTable).map
        (fun r => (r.1, r.2.Err, r.2.rows.isSome, r.2.data.Connection.closed))
      = some (["INSERT INTO `t` VALUES (1,'a');".toList], some "sql: Scan error".toList,
          true, 0) ∧
    (Stream id (scenarioTable 40)).map
        (fun r => (r.2.Err, r.2.rows.isSome, r.2.data.Connection.closed))
      = some (none, false, 1) := by
  refine ⟨by decide, by decide⟩

/-- C19, refuted as stated. With `MaxAllowedPacket` the least `int` the
subtraction `MaxAllowedPacket-1` wraps around to the greatest `int`: the three
rows of the scenario are emitted in one statement of 50 bytes, more than
`MaxAllowedPacket + 1`. -/
theorem Stream_statement_over_bound_at_least_int :
    budget (-9223372036854775808) = 9223372036854775807 ∧
    emitted id (scenarioTable (-9223372036854775808))
      = some [statementOf "`t`".toList
          ["(1,'a')".toList, "(2,'bb')".toList, "(3,'ccc')".toList]] ∧
    ¬ (((statementOf "`t`".toList
          ["(1,'a')".toList, "(2,'bb')".toList, "(3,'ccc')".toList]).length : Int)
        ≤ -9223372036854775808 + 1) := by
  refine ⟨by decide, by decide, by decide⟩

/-- C19, amended. On every table whose cursor opens, whatever the fetches, a
statement emitted by `Stream` that holds a single tuple `u` has exactly
`len(preamble) + len(u) + 1` bytes, and one that holds two or more tuples has at
most `(MaxAllowedPacket-1) + 2` bytes, `MaxAllowedPacket-1` being the value the
code computes: at most `MaxAllowedPacket + 1` when `MaxAllowedPacket` is an `int`
other than the least. The bound is attained: with `MaxAllowedPacket = 39` the
first statement of the scenario holds two tuples and has 40 bytes. -/
theorem Stream_statement_length_bounds (sanitize : Bytes → Bytes) (t : table) (cur : Rows)
    (rows : List (List Value)) (tail : List Fetch) (hopen : Opens t cur)
    (hf : cur.fetches = rows.map Fetch.ok ++ tail) (hstop : Stops tail) :
    (∃ (G : List (List Bytes)) (t1 : table),
      Stream sanitize t = some (G.map (statementOf (NameEsc t)), t1) ∧
      G.flatten = rows.map (encodeRow sanitize t) ∧
      ∀ g ∈ G,
        (∀ u, g = [u] →
          (statementOf (NameEsc t) g).length
            = ("INSERT INTO ".toList ++ NameEsc t ++ " VALUES ".toList).length + u.length + 1) ∧
        (2 ≤ g.length →
          ((statementOf (NameEsc t) g).length : Int) ≤ budget t.data.MaxAllowedPacket + 2 ∧
          (-9223372036854775808 < t.data.MaxAllowedPacket →
            t.data.MaxAllowedPacket ≤ 9223372036854775807 →
            ((statementOf (NameEsc t) g).length : Int) ≤ t.data.MaxAllowedPacket + 1))) ∧
    (emitted id (scenarioTable 39)
        = some [statementOf "`t`".toList ["(1,'a')".toList, "(2,'bb')".toList],
                statementOf "`t`".toList ["(3,'ccc')".toList]] ∧
      ((statementOf "`t`".toList ["(1,'a')".toList, "(2,'bb')".toList]).length : Int)
        = 39 + 1) := by
  refine ⟨?_, by decide, by decide⟩
  obtain ⟨G, t1, h1, h2, h3⟩ := Stream_groups_tail sanitize t cur rows tail hopen hf hstop
  refine ⟨G, t1, h1, h2, ?_⟩
  intro g hg
  constructor
  · intro u hu
    subst hu
    rw [statementOf_length, openStatement_single]
    simp [preamble]
    omega
  · intro hlen
    have hbound : ((statementOf (NameEsc t) g).length : Int)
        ≤ budget t.data.MaxAllowedPacket + 2 := by
      rcases List.eq_nil_or_concat g with hnil | ⟨a, u, hau⟩
      · subst hnil; simp at hlen
      · rw [List.concat_eq_append] at hau
        subst hau
        have ha : a ≠ [] := by
          intro h0; subst h0; simp at hlen
        have hw := h3.2.1 (a ++ [u]) hg a u [] rfl ha
        rw [statementOf_length, openStatement_concat_length (NameEsc t) u a ha]
        push_cast at hw ⊢
        omega
    refine ⟨hbound, ?_⟩
    intro hlo hhi
    rw [budget_eq_sub_one _ hlo hhi] at hbound
    omega

/-- C19 amended, at the scenario with `MaxAllowedPacket = 39`. -/
theorem Stream_statement_length_bounds_witness :
    ∃ (G : List (List Bytes)) (t1 : table),
      Stream id (scenarioTable 39) = some (G.map (statementOf (NameEsc (scenarioTable 39))), t1) ∧
      G.flatten = scenarioRows.map (encodeRow id (scenarioTable 39)) ∧
      ∀ g ∈ G,
        (∀ u, g = [u] →
          (statementOf (NameEsc (scenarioTable 39)) g).length
            = ("INSERT INTO ".toList ++ NameEsc (scenarioTable 39) ++ " VALUES ".toList).length
                + u.length + 1) ∧
        (2 ≤ g.length →
          ((statementOf (NameEsc (scenarioTable 39)) g).length : Int)
              ≤ budget (scenarioTable 39).data.MaxAllowedPacket + 2 ∧
          (-9223372036854775808 < (scenarioTable 39).data.MaxAllowedPacket →
            (scenarioTable 39).data.MaxAllowedPacket ≤ 9223372036854775807 →
            ((statementOf (NameEsc (scenarioTable 39)) g).length : Int)
              ≤ (scenarioTable 39).data.MaxAllowedPacket + 1)) :=
  (Stream_statement_length_bounds id (scenarioTable 39)
    (scenarioCursor (scenarioRows.map Fetch.ok)) scenarioRows []
    ⟨rfl, rfl, rfl, ⟨_, _, rfl⟩, ⟨_, rfl⟩⟩ rfl trivial).1

/-- C20. After `Stream` has exhausted the cursor of a table whose column types
are populated, `table.rows` is nil and `table.Err` is as before; a further call
of `Next` returns false, records the error `can't init twice` and changes nothing
else, and a second `Stream` emits no statement and ends with that error
recorded, no query being sent. -/
theorem Next_after_exhaustion_is_error (sanitize : Bytes → Bytes) (t : table) (cur : Rows)
    (tt : List ColumnType) (rows : List (List Value)) (hopen : Opens t cur)
    (htt : cur.ColumnTypes = Except.ok tt) (hne : tt ≠ [])
    (hrows : cur.fetches = rows.map Fetch.ok) :
    ∃ (out : List Bytes) (t1 : table), Stream sanitize t = some (out, t1) ∧
      t1.rows = none ∧ t1.Err = t.Err ∧
      Next t1 = (false, { t1 with Err := some "can't init twice".toList }) ∧
      Stream sanitize t1 = some ([], { t1 with Err := some "can't init twice".toList }) := by
  have hf : cur.fetches = rows.map Fetch.ok ++ [] := by simp [hrows]
  obtain ⟨r, h1, h2, h3, -⟩ :=
    Stream_rows_state sanitize t cur tt rows [] hopen htt hf (by simp [Stops])
  obtain ⟨t2, h4, h5⟩ := Stream_rows sanitize t cur rows [] hopen hf (by simp [Stops])
  have hr : r.2 = t2 := by
    rw [h1] at h4
    have := Option.some.inj h4
    rw [this]
  have htypes : r.2.types ≠ [] := by
    rw [h2]; simpa using hne
  have hnone : r.2.rows = none := h3
  have hnext : Next r.2 = (false, { r.2 with Err := some "can't init twice".toList }) := by
    simp only [Next, hnone, Init_twice_is_error_aux r.2 htypes]
  refine ⟨r.1, r.2, by rw [h1], hnone, ?_, hnext, ?_⟩
  · rw [hr, h5]; rfl
  · have hfalse : (Next r.2).1 = false := by rw [hnext]
    simp only [Stream, streamLoop_stop sanitize r.2 (pending r.2) ([], []) hfalse, hnext]
    rfl

/-- C20, at the scenario. -/
theorem Next_after_exhaustion_is_error_witness :
    ∃ (out : List Bytes) (t1 : table), Stream id (scenarioTable 40) = some (out, t1) ∧
      t1.rows = none ∧ t1.Err = (scenarioTable 40).Err ∧
      Next t1 = (false, { t1 with Err := some "can't init twice".toList }) ∧
      Stream id t1 = some ([], { t1 with Err := some "can't init twice".toList }) :=
  Next_after_exhaustion_is_error id (scenarioTable 40)
    (scenarioCursor (scenarioRows.map Fetch.ok))
    [ColumnType.mk "INT".toList (some Kind.Int64), ColumnType.mk "VARCHAR".toList none]
    scenarioRows ⟨rfl, rfl, rfl, ⟨_, _, rfl⟩, ⟨_, rfl⟩⟩ rfl (by decide) rfl

/-! ## The queries of a dump -/

theorem extends_refl (P : Bytes → Prop) (q0 : List Bytes) : Extends P q0 q0 :=
  ⟨[], by simp, by simp⟩

theorem extends_of_eq (P : Bytes → Prop) (q0 q1 : List Bytes) (h : q1 = q0) :
    Extends P q0 q1 := by
  rw [h]; exact extends_refl P q0

theorem extends_single (P : Bytes → Prop) (q0 q1 : List Bytes) (q : Bytes) (hq : P q)
    (h : q1 = q0 ++ [q]) : Extends P q0 q1 :=
  ⟨[q], h, by simpa using hq⟩

theorem extends_trans (P : Bytes → Prop) (q0 q1 q2 : List Bytes) (h1 : Extends P q0 q1)
    (h2 : Extends P q1 q2) : Extends P q0 q2 := by
  obtain ⟨e1, rfl, p1⟩ := h1
  obtain ⟨e2, rfl, p2⟩ := h2
  refine ⟨e1 ++ e2, by simp, ?_⟩
  intro q hq
  rcases List.mem_append.mp hq with h | h
  · exact p1 q h
  · exact p2 q h

theorem extends_mono (P Q : Bytes → Prop) (q0 q1 : List Bytes) (hPQ : ∀ q, P q → Q q)
    (h : Extends P q0 q1) : Extends Q q0 q1 := by
  obtain ⟨e, he, hp⟩ := h
  exact ⟨e, he, fun q hq => hPQ q (hp q hq)⟩

theorem Init_queries (t : table) :
    (Init t).2.Name = t.Name ∧
      Extends (QueryOf t.Name) t.data.Connection.queries (Init t).2.data.Connection.queries := by
  have hsel : QueryOf t.Name ("SELECT * FROM ".toList ++ NameEsc t) := Or.inr rfl
  unfold Init
  split
  · exact ⟨rfl, extends_refl _ _⟩
  · simp only [DB.Query]
    split
    · rename_i e db heq
      simp only [Prod.mk.injEq] at heq
      refine ⟨rfl, extends_single _ _ _ _ hsel ?_⟩
      rw [← heq.2]
    · rename_i rows db heq
      simp only [Prod.mk.injEq] at heq
      have hext : Extends (QueryOf t.Name) t.data.Connection.queries db.queries := by
        refine extends_single _ _ _ _ hsel ?_
        rw [← heq.2]
      split
      · exact ⟨rfl, hext⟩
      · split
        · exact ⟨rfl, hext⟩
        · split
          · exact ⟨rfl, hext⟩
          · exact ⟨rfl, hext⟩

theorem nextRow_queries (t : table) :
    (nextRow t).2.Name = t.Name ∧
      (nextRow t).2.data.Connection.queries = t.data.Connection.queries := by
  unfold nextRow
  split
  · exact ⟨rfl, rfl⟩
  · split
    · split <;> exact ⟨rfl, rfl⟩
    · exact ⟨rfl, rfl⟩

theorem Next_queries (t : table) :
    (Next t).2.Name = t.Name ∧
      Extends (QueryOf t.Name) t.data.Connection.queries (Next t).2.data.Connection.queries := by
  obtain ⟨i1, i2⟩ := Init_queries t
  unfold Next
  split
  · split
    · rename_i err t1 heq
      rw [heq] at i1 i2
      exact ⟨i1, i2⟩
    · rename_i t1 heq
      rw [heq] at i1 i2
      obtain ⟨n1, n2⟩ := nextRow_queries t1
      refine ⟨by rw [n1]; exact i1, ?_⟩
      rw [n2]; exact i2
  · obtain ⟨n1, n2⟩ := nextRow_queries t
    exact ⟨n1, extends_of_eq _ _ _ n2⟩

theorem streamLoop_queries (sanitize : Bytes → Bytes) (fuel : Nat) :
    ∀ (t : table) (st : Bytes × List Bytes) (r : (Bytes × List Bytes) × table),
      streamLoop sanitize fuel t st = some r →
      r.2.Name = t.Name ∧
        Extends (QueryOf t.Name) t.data.Connection.queries r.2.data.Connection.queries := by
  induction fuel with
  | zero => intro t st r h; simp [streamLoop] at h
  | succ k ih =>
    intro t st r h
    obtain ⟨n1, n2⟩ := Next_queries t
    cases hn : Next t with
    | mk b t1 =>
      rw [hn] at n1 n2
      cases b with
      | false =>
        rw [streamLoop, hn] at h
        have hr : r = (st, t1) := (Option.some.inj h).symm
        rw [hr]
        exact ⟨n1, n2⟩
      | true =>
        rw [streamLoop, hn] at h
        obtain ⟨k1, k2⟩ := ih t1 _ r h
        rw [n1] at k2
        exact ⟨by rw [k1]; exact n1, extends_trans _ _ _ _ n2 k2⟩

theorem Stream_queries (sanitize : Bytes → Bytes) (t : table) (r : List Bytes × table)
    (h : Stream sanitize t = some r) :
    r.2.Name = t.Name ∧
      Extends (QueryOf t.Name) t.data.Connection.queries r.2.data.Connection.queries := by
  unfold Stream at h
  split at h
  · simp at h
  · rename_i st t1 heq
    have hr : r = (streamFlush st, t1) := (Option.some.inj h).symm
    rw [hr]
    exact streamLoop_queries sanitize _ t ([], []) (st, t1) heq

theorem queryRowScan2_db (db : DB) (q : Bytes) :
    (db.queryRowScan2 q).2.queries = db.queries ++ [q] := by
  unfold DB.queryRowScan2
  simp only [DB.Query]
  split
  · rename_i e db1 heq
    simp only [Prod.mk.injEq] at heq
    rw [← heq.2]
  · rename_i rows db1 heq
    simp only [Prod.mk.injEq] at heq
    have hdb : db1.queries = db.queries ++ [q] := by rw [← heq.2]
    split
    · split <;> exact hdb
    · exact hdb
    · split
      · split <;> exact hdb
      · exact hdb
    · split
      · split <;> exact hdb
      · exact hdb

theorem CreateSQL_queries (t : table) :
    (CreateSQL t).2.Name = t.Name ∧
      Extends (QueryOf t.Name) t.data.Connection.queries
        (CreateSQL t).2.data.Connection.queries := by
  have hq := queryRowScan2_db t.data.Connection ("SHOW CREATE TABLE ".toList ++ NameEsc t)
  have hshow : QueryOf t.Name ("SHOW CREATE TABLE ".toList ++ NameEsc t) := Or.inl rfl
  unfold CreateSQL
  split
  · rename_i err db heq
    rw [heq] at hq
    exact ⟨rfl, extends_single _ _ _ _ hshow hq⟩
  · rename_i tableReturn tableSQL db heq
    rw [heq] at hq
    split
    · exact ⟨rfl, extends_single _ _ _ _ hshow hq⟩
    · exact ⟨rfl, extends_single _ _ _ _ hshow hq⟩

theorem executeTableTmpl_queries (sanitize : Bytes → Bytes) (wrap : Error → Error) (t : table)
    (r : Bytes × Option Error × table) (h : executeTableTmpl sanitize wrap t = some r) :
    Extends (QueryOf t.Name) t.data.Connection.queries r.2.2.data.Connection.queries := by
  obtain ⟨c1, c2⟩ := CreateSQL_queries t
  unfold executeTableTmpl at h
  simp only at h
  split at h
  · rename_i err t1 heq
    rw [heq] at c2
    have hr := (Option.some.inj h).symm
    rw [hr]
    exact c2
  · rename_i sql t1 heq
    rw [heq] at c1 c2
    split at h
    · simp at h
    · rename_i values t2 hs
      obtain ⟨s1, s2⟩ := Stream_queries sanitize t1 (values, t2) hs
      have hr := (Option.some.inj h).symm
      rw [hr]
      rw [show t1.Name = t.Name from c1] at s2
      exact extends_trans _ _ _ _ c2 s2

theorem dumpTable_queries (sanitize : Bytes → Bytes) (wrap : Error → Error) (data : Data)
    (name : Bytes) (r : Bytes × Option Error × Data)
    (h : dumpTable sanitize wrap data name = some r) :
    Extends (QueryOf name) data.Connection.queries r.2.2.Connection.queries := by
  unfold dumpTable at h
  split at h
  · have hr := (Option.some.inj h).symm
    rw [hr]
    exact extends_refl _ _
  · split at h
    · simp at h
    · rename_i out err t1 hw
      have hr := (Option.some.inj h).symm
      rw [hr]
      unfold writeTable at hw
      split at hw
      · simp at hw
      · rename_i out1 err1 t2 he
        have := executeTableTmpl_queries sanitize wrap _ _ he
        have ht : t1 = t2 := by
          have := Option.some.inj hw
          simp only [Prod.mk.injEq] at this
          exact this.2.2.symm
        rw [ht]
        exact this
      · rename_i out1 t2 he
        have := executeTableTmpl_queries sanitize wrap _ _ he
        have ht : t1 = t2 := by
          have := Option.some.inj hw
          simp only [Prod.mk.injEq] at this
          exact this.2.2.symm
        rw [ht]
        exact this

theorem dumpTables_queries (sanitize : Bytes → Bytes) (wrap : Error → Error)
    (names : List Bytes) :
    ∀ (data : Data) (r : Bytes × Option Error × Data),
      dumpTables sanitize wrap data names = some r →
      Extends (fun q => ∃ n ∈ names, QueryOf n q) data.Connection.queries
        r.2.2.Connection.queries := by
  induction names with
  | nil =>
    intro data r h
    have hr := (Option.some.inj h).symm
    rw [hr]
    exact extends_refl _ _
  | cons name rest ih =>
    intro data r h
    unfold dumpTables at h
    split at h
    · simp at h
    · rename_i out err data1 hd
      have h1 := dumpTable_queries sanitize wrap data name _ hd
      have hr := (Option.some.inj h).symm
      rw [hr]
      exact extends_mono _ _ _ _ (fun q hq => ⟨name, by simp, hq⟩) h1
    · rename_i out data1 hd
      have h1 := dumpTable_queries sanitize wrap data name _ hd
      split at h
      · simp at h
      · rename_i out2 err data2 hrest
        have h2 := ih data1 _ hrest
        have hr := (Option.some.inj h).symm
        rw [hr]
        refine extends_trans _ _ _ _
          (extends_mono _ _ _ _ (fun q hq => ⟨name, by simp, hq⟩) h1)
          (extends_mono _ _ _ _ ?_ h2)
        intro q hq
        obtain ⟨n, hn, hqn⟩ := hq
        exact ⟨n, List.mem_cons_of_mem _ hn, hqn⟩

theorem executeTableTmpl_total (sanitize : Bytes → Bytes) (wrap : Error → Error) (t : table) :
    ∃ r, executeTableTmpl sanitize wrap t = some r := by
  cases h : CreateSQL t with
  | mk res t1 =>
    cases res with
    | error err =>
      simp only [executeTableTmpl, h]
      exact ⟨_, rfl⟩
    | ok sql =>
      obtain ⟨⟨values, t2⟩, hr⟩ := Stream_total sanitize t1
      simp only [executeTableTmpl, h, hr]
      exact ⟨_, rfl⟩

theorem writeTable_total (sanitize : Bytes → Bytes) (wrap : Error → Error) (t : table) :
    ∃ r, writeTable sanitize wrap t = some r := by
  obtain ⟨⟨out, err, t1⟩, hr⟩ :=
    executeTableTmpl_total sanitize wrap { t with CharsetName := t.data.CharsetName }
  cases err with
  | some e =>
    simp only [writeTable, hr]
    exact ⟨_, rfl⟩
  | none =>
    simp only [writeTable, hr]
    exact ⟨_, rfl⟩

theorem dumpTable_total (sanitize : Bytes → Bytes) (wrap : Error → Error) (data : Data)
    (name : Bytes) : ∃ r, dumpTable sanitize wrap data name = some r := by
  cases herr : data.err with
  | some e =>
    simp only [dumpTable, herr]
    exact ⟨_, rfl⟩
  | none =>
    obtain ⟨⟨out, err, t1⟩, hr⟩ := writeTable_total sanitize wrap (createTable data name)
    simp only [dumpTable, herr, hr]
    exact ⟨_, rfl⟩

theorem dumpTables_total (sanitize : Bytes → Bytes) (wrap : Error → Error)
    (names : List Bytes) :
    ∀ data : Data, ∃ r, dumpTables sanitize wrap data names = some r := by
  induction names with
  | nil => intro data; exact ⟨_, rfl⟩
  | cons name rest ih =>
    intro data
    obtain ⟨r, hr⟩ := dumpTable_total sanitize wrap data name
    obtain ⟨out, err, data1⟩ := r
    unfold dumpTables
    rw [hr]
    cases err with
    | some e => exact ⟨_, rfl⟩
    | none =>
      obtain ⟨r2, hr2⟩ := ih data1
      simp only [hr2]
      exact ⟨_, rfl⟩

theorem isIgnoredLoop_iff (name : Bytes) (items : List Bytes) :
    isIgnoredLoop name items = true ↔ name ∈ items := by
  induction items with
  | nil => simp [isIgnoredLoop]
  | cons item rest ih =>
    unfold isIgnoredLoop
    by_cases h : item = name
    · simp [h]
    · have h2 : ¬ name = item := fun e => h e.symm
      simp [h, h2, ih]

theorem getTablesLoop_valid (data : Data) (lastErr : Option Error)
    (names : List (Bytes × Bool)) :
    ∀ tables : List Bytes,
      getTablesLoop data lastErr (names.map (fun x => Fetch.ok [Value.NullString x.1 x.2])) tables
        = (tables ++ (names.filter
            (fun x => x.2 && decide (x.1 ∉ data.IgnoreTables))).map Prod.fst, lastErr) := by
  induction names with
  | nil => intro tables; simp [getTablesLoop]
  | cons x rest ih =>
    intro tables
    have hig : isIgnoredTable data x.1 = false ↔ x.1 ∉ data.IgnoreTables := by
      rw [← isIgnoredLoop_iff x.1 data.IgnoreTables, isIgnoredTable]
      simp
    simp only [List.map_cons, getTablesLoop, scanTableName, asNullString]
    by_cases hv : x.2 = true ∧ isIgnoredTable data x.1 = false
    · have hk : (x.2 && decide (x.1 ∉ data.IgnoreTables)) = true := by
        simp [hv.1, hig.mp hv.2]
      rw [if_pos hv, ih, List.filter_cons, if_pos hk]
      simp
    · have hk : ¬ (x.2 && decide (x.1 ∉ data.IgnoreTables)) = true := by
        intro hc
        simp only [Bool.and_eq_true, decide_eq_true_eq] at hc
        exact hv ⟨hc.1, hig.mpr hc.2⟩
      rw [if_neg hv, ih, List.filter_cons, if_neg hk]

/-- C17. When the table listing answers with the rows `names` (a name and its
validity each) and no error, `getTables` returns the valid names that are not in
`IgnoreTables`, in their order, and no error; `isIgnoredTable` is true exactly
for the members of `IgnoreTables`, compared byte by byte; no returned name is in
`IgnoreTables`, and every query the loop of `dump` over the returned tables
sends is the creation-statement query or the rows query of a returned table,
never of a table in `IgnoreTables`. -/
theorem getTables_skips_ignored (sanitize : Bytes → Bytes) (wrap : Error → Error)
    (data : Data) (cur : Rows) (names : List (Bytes × Bool))
    (hq : data.Connection.respond data.Connection.queries "SHOW TABLES".toList = Except.ok cur)
    (hf : cur.fetches = names.map (fun x => Fetch.ok [Value.NullString x.1 x.2]))
    (herr : cur.Err = none) :
    (getTables data).1
        = (names.filter (fun x => x.2 && decide (x.1 ∉ data.IgnoreTables))).map Prod.fst ∧
      (getTables data).2.1 = none ∧
      (∀ name, isIgnoredTable data name = true ↔ name ∈ data.IgnoreTables) ∧
      (∀ name ∈ (getTables data).1, name ∉ data.IgnoreTables) ∧
      ∃ (r : Bytes × Option Error × Data) (extra : List Bytes),
        dumpTables sanitize wrap (getTables data).2.2 (getTables data).1 = some r ∧
        r.2.2.Connection.queries = (getTables data).2.2.Connection.queries ++ extra ∧
        ∀ q ∈ extra, ∃ n ∈ (getTables data).1, n ∉ data.IgnoreTables ∧
          (q = "SHOW CREATE TABLE ".toList ++ ("`".toList ++ n ++ "`".toList) ∨
            q = "SELECT * FROM ".toList ++ ("`".toList ++ n ++ "`".toList)) := by
  have hget : getTables data
      = ((names.filter (fun x => x.2 && decide (x.1 ∉ data.IgnoreTables))).map Prod.fst, none,
          { data with Connection :=
              (data.Connection.Query "SHOW TABLES".toList).2.closeRows }) := by
    have hquery : data.Connection.Query "SHOW TABLES".toList
        = (Except.ok cur, (data.Connection.Query "SHOW TABLES".toList).2) := by
      simp only [DB.Query, hq]
    unfold getTables
    rw [hquery]
    simp only [hf, herr, getTablesLoop_valid, List.nil_append]
  have hmem : ∀ name ∈ (getTables data).1, name ∉ data.IgnoreTables := by
    intro name hn
    rw [hget] at hn
    obtain ⟨x, hx, rfl⟩ := List.mem_map.mp hn
    have := (List.mem_filter.mp hx).2
    simp only [Bool.and_eq_true, decide_eq_true_eq] at this
    exact this.2
  refine ⟨by rw [hget], by rw [hget], fun name => isIgnoredLoop_iff name data.IgnoreTables,
    hmem, ?_⟩
  obtain ⟨r, hr⟩ := dumpTables_total sanitize wrap (getTables data).1 (getTables data).2.2
  obtain ⟨extra, he, hp⟩ := dumpTables_queries sanitize wrap (getTables data).1 _ r hr
  refine ⟨r, extra, hr, he, ?_⟩
  intro q hq
  obtain ⟨n, hn, hqn⟩ := hp q hq
  exact ⟨n, hn, hmem n hn, hqn⟩

/-- C17, at a listing of `users`, `secrets`, a NULL, `orders` and `Secrets`, with
`secrets` ignored. -/
theorem getTables_skips_ignored_witness :
    (getTables listingData).1 = ["users".toList, "orders".toList, "Secrets".toList] :=
  (getTables_skips_ignored id id listingData
    (scenarioCursor
      (listedNames.map (fun x : Bytes × Bool => Fetch.ok [Value.NullString x.1 x.2])))
    listedNames rfl rfl rfl).1

end MySQLDump
